import Mathlib

/-!
Shallow embedding of the transfer-rail selector implemented in
`app/static/js/transfers.js`.

The DOM state relevant to that script is modelled explicitly: the account
cards in document order (with their data attributes and state classes),
the hidden form fields, the recipient wrapper/input elements, the rail
elements present, and the two self-transfer checkboxes.  Each function of
the script becomes a pure state transformer on this model, translated
line by line from the JavaScript source.
-/

/-- One account-card element: its `data-rail-group` attribute, the id of
the rail element containing it, its `data-account-id` and `data-currency`
attributes (`none` when the attribute is absent), and its `selected`,
`disabled` and `d-none` classes. -/
structure Card where
  group : String
  container : String
  accountId : Option String
  currency : Option String
  selected : Bool
  disabled : Bool
  dNone : Bool
deriving Repr, DecidableEq

/-- State of one recipient input element: its `disabled` property and its
`is-disabled` class. -/
structure InputState where
  disabledProp : Bool
  isDisabledClass : Bool
deriving Repr, DecidableEq

/-- State of one recipient wrapper element: its `opacity-75` class and its
`aria-disabled` attribute (modelled as the boolean it encodes). -/
structure WrapState where
  opacity75 : Bool
  ariaDisabled : Bool
deriving Repr, DecidableEq

/-- The DOM state the transfer script reads and writes: account cards in
document order, hidden form fields keyed by element id, recipient
wrappers and inputs keyed by element id, the ids of the rail elements
present in the document, and the two self-transfer checkboxes together
with the self-BDT wrapper (`none` when the element is absent, otherwise
its checked / d-none state). -/
structure DomState where
  cards : List Card
  fields : List (String × String)
  wraps : List (String × WrapState)
  inputs : List (String × InputState)
  railIds : List String
  selfChk : Option Bool
  selfWrapDNone : Option Bool
  localSelfChk : Option Bool
deriving Repr, DecidableEq

/-- Lookup of an element by id in one of the id-keyed element lists,
`none` when no such element exists (`document.getElementById` returning
`null`). -/
def lookupId {α : Type} (l : List (String × α)) (k : String) : Option α :=
  (l.find? (fun kv => kv.1 == k)).map (fun kv => kv.2)

/-- Overwriting the state of every element whose id satisfies `P` with
`w`; elements that do not match (in particular when the targeted element
is absent) are untouched. -/
def condSet {α : Type} (P : String → Bool) (w : α) (l : List (String × α)) : List (String × α) :=
  l.map (fun kv => if P kv.1 then (kv.1, w) else kv)

/-- Value of the hidden field with the given element id. -/
def getField (s : DomState) (fid : String) : Option String :=
  lookupId s.fields fid

/-- Assigning `value` to the hidden field with the given id; when the
element is absent nothing changes. -/
def setField (fs : List (String × String)) (fid v : String) : List (String × String) :=
  condSet (fun k => k == fid) v fs

/-- State of the recipient wrapper with the given element id. -/
def getWrap (s : DomState) (wid : String) : Option WrapState :=
  lookupId s.wraps wid

/-- State of the recipient input with the given element id. -/
def getInput (s : DomState) (iid : String) : Option InputState :=
  lookupId s.inputs iid

/-- The JavaScript truthiness test applied to an optional string attribute
or option field: absent (`undefined`) and the empty string are falsy. -/
def jsTruthy : Option String → Bool
  | some v => !(v == "")
  | none => false

/-- The JavaScript `toUpperCase()` on the character data of a string
(kept at the level of the character list so that it computes by
`decide`). -/
def jsToUpper (s : String) : String := ⟨s.data.map Char.toUpper⟩

/-- Normalisation of `allowedCurrency` performed at the top of
`filterRailByCurrency`: a falsy argument (null / empty string) yields no
filter, otherwise the code is upper-cased. -/
def normAllow : Option String → Option String
  | some a => if a = "" then none else some (jsToUpper a)
  | none => none

/-- Per-card effect of `filterRailByCurrency` on the cards of the rail
`railId`: show the card when no filter is given or its currency matches
case-insensitively, hide it otherwise, and drop the `selected` class of a
hidden card.  Cards outside the rail are untouched. -/
def applyFilterCard (railId : String) (allow : Option String) (c : Card) : Card :=
  if c.container = railId then
    let cur := jsToUpper (c.currency.getD "")
    let shown := match allow with
      | some a => cur == a
      | none => true
    { c with dNone := !shown, selected := shown && c.selected }
  else c

/-- `filterRailByCurrency(railId, allowedCurrency)`: early return when the
rail element is absent, otherwise apply the per-card filter to every card
of the rail. -/
def filterRailByCurrency (s : DomState) (railId : String) (allowedCurrency : Option String) : DomState :=
  if railId ∈ s.railIds then
    { s with cards := s.cards.map (applyFilterCard railId (normAllow allowedCurrency)) }
  else s

/-- Per-card effect of `showAllCardsInRail`: remove `d-none` from cards of
the rail. -/
def showAllCard (railId : String) (c : Card) : Card :=
  if c.container = railId then { c with dNone := false } else c

/-- `showAllCardsInRail(railId)`: early return when the rail element is
absent, otherwise unhide every card of the rail. -/
def showAllCardsInRail (s : DomState) (railId : String) : DomState :=
  if railId ∈ s.railIds then
    { s with cards := s.cards.map (showAllCard railId) }
  else s

/-- Per-card effect of `applyLocalToDisables`: a `local-to` card is
disabled exactly when its `data-account-id` strictly equals `fromId`
(an absent attribute never equals the string). -/
def disableCard (fromId : String) (c : Card) : Card :=
  if c.group = "local-to" then
    if c.accountId = some fromId then { c with disabled := true }
    else { c with disabled := false }
  else c

/-- `applyLocalToDisables()`: read the `local-from-id` hidden field (empty
string when the element is absent) and disable the matching card of the
`local-to` group, enabling all others. -/
def applyLocalToDisables (s : DomState) : DomState :=
  { s with cards := s.cards.map (disableCard ((getField s "local-from-id").getD "")) }

/-- `applyLocalCurrencyFilter(fromCard)`: filter the `rail-local-to` rail
to the from-card's currency, or show every card when the from card is
null or has a falsy currency. -/
def applyLocalCurrencyFilter (s : DomState) (fromCard : Option Card) : DomState :=
  let cur := jsToUpper ((fromCard.bind (fun c => c.currency)).getD "")
  if cur = "" then showAllCardsInRail s "rail-local-to"
  else filterRailByCurrency s "rail-local-to" (some cur)

/-- `applyIntlToCurrencyFilter(fromCard)`: filter the `rail-intl-to` rail
to the currency opposite the from-card's (KRW vs BDT); with no or a falsy
currency, or a currency that is neither code, show every card. -/
def applyIntlToCurrencyFilter (s : DomState) (fromCard : Option Card) : DomState :=
  let cur := jsToUpper ((fromCard.bind (fun c => c.currency)).getD "")
  if cur = "" then showAllCardsInRail s "rail-intl-to"
  else
    let opposite : Option String :=
      if cur = "KRW" then some "BDT" else if cur = "BDT" then some "KRW" else none
    match opposite with
    | some o => filterRailByCurrency s "rail-intl-to" (some o)
    | none => showAllCardsInRail s "rail-intl-to"

/-- `setRecipientDisabled(scope, disabled)`: toggle the visual cue and
aria attribute on the wrapper (when present) and set the disabled state
of the recipient id / name inputs (those present). -/
def setRecipientDisabled (s : DomState) (scope : String) (dis : Bool) : DomState :=
  let wrapId := scope ++ "recipient-wrap"
  let idId := scope ++ "recipient_id"
  let nameId := scope ++ "recipient_name"
  let s1 := { s with wraps := condSet (fun k => k == wrapId) (WrapState.mk dis dis) s.wraps }
  { s1 with inputs := condSet (fun k => k == idId || k == nameId) (InputState.mk dis dis) s1.inputs }

/-- The `onSelect` callbacks appearing in the rail wiring `map` literal. -/
inductive SelectCb
  | noCb
  | localFromCb
  | intlFromCb
deriving Repr, DecidableEq

/-- Run one of the wired `onSelect` callbacks on the freshly selected
card. -/
def runSelectCb (cb : SelectCb) (card : Card) (s : DomState) : DomState :=
  match cb with
  | .noCb => s
  | .localFromCb => applyLocalCurrencyFilter (applyLocalToDisables s) (some card)
  | .intlFromCb => applyIntlToCurrencyFilter s (some card)

/-- The options record passed to `selectCard`: hidden-field bindings and
the follow-on callback. -/
structure SelectOptions where
  hiddenId : Option String
  hiddenCurrency : Option String
  cb : SelectCb
deriving Repr, DecidableEq

/-- Per-card effect of the clearing loop in `selectCard`: drop `selected`
from every card of the group. -/
def clearGroupCard (g : String) (c : Card) : Card :=
  if c.group = g then { c with selected := false } else c

/-- `selectCard(card, options)` where the card is given by its index in
document order: clear `selected` on every card of the card's rail group,
mark this card selected, write its account id into the bound hidden field
(when the binding is truthy and the element exists), write its currency
into the second hidden field (when both the binding and the attribute are
truthy and the element exists), then invoke the callback.  The id write,
performed only for a truthy binding: -/
def writeHiddenId (o : SelectOptions) (card : Card) (fs : List (String × String)) : List (String × String) :=
  match o.hiddenId with
  | some hid => if hid = "" then fs else setField fs hid (card.accountId.getD "")
  | none => fs

/-- The conditional currency write of `selectCard`: performed only when
the binding and the card's currency attribute are both truthy. -/
def writeHiddenCurrency (o : SelectOptions) (card : Card) (fs : List (String × String)) : List (String × String) :=
  match o.hiddenCurrency with
  | some hc =>
    if hc = "" then fs
    else match card.currency with
      | some cur => if cur = "" then fs else setField fs hc cur
      | none => fs
  | none => fs

/-- Body of `selectCard` once the card reference is resolved: clear
`selected` on the card's rail group, mark this card selected, perform the
two conditional hidden-field writes, then run the callback. -/
def selectCardResolved (s : DomState) (i : Nat) (card : Card) (o : SelectOptions) : DomState :=
  runSelectCb o.cb card
    { s with
      cards := (s.cards.map (clearGroupCard card.group)).set i { card with selected := true }
      fields := writeHiddenCurrency o card (writeHiddenId o card s.fields) }

def selectCard (s : DomState) (i : Nat) (o : SelectOptions) : DomState :=
  match s.cards[i]? with
  | none => s
  | some card => selectCardResolved s i card o

/-- The wiring `map` literal: options bound to each rail group key
(`undefined` bindings for any other key). -/
def optsFor (group : String) : SelectOptions :=
  if group = "local-from" then ⟨some "local-from-id", some "local-currency", .localFromCb⟩
  else if group = "local-to" then ⟨some "local-to-id", none, .noCb⟩
  else if group = "intl-from" then ⟨some "intl-from-id", none, .intlFromCb⟩
  else if group = "intl-to" then ⟨some "intl-to-id", none, .noCb⟩
  else ⟨none, none, .noCb⟩

/-- The click handler wired on a rail: nothing happens when the rail
element is absent (no listener), when the click hits no card, or when the
card carries the `disabled` class; otherwise the card is selected with
the group's bindings.  The handler performs no `d-none` check. -/
def railClick (s : DomState) (group : String) (target : Option Nat) : DomState :=
  if ("rail-" ++ group) ∈ s.railIds then
    match target with
    | none => s
    | some i =>
      match s.cards[i]? with
      | none => s
      | some c => if c.disabled then s else selectCard s i (optsFor group)
  else s

/-- Index of the first card (document order) satisfying the predicate. -/
def firstIdxWhere (p : Card → Bool) : List Card → Option Nat
  | [] => none
  | c :: rest => if p c then some 0 else (firstIdxWhere p rest).map (fun n => n + 1)

/-- The selector `.account-card:not(.d-none):not(.disabled)` scoped to one
rail: the card is inside the rail element, visible and enabled. -/
def eligCardIn (railId : String) (c : Card) : Bool :=
  c.container == railId && !c.dNone && !c.disabled

/-- The query `#railId .account-card:not(.d-none):not(.disabled)`: the
first visible, non-disabled card inside the rail element, `none` when the
rail element is absent. -/
def findFirstEligible (s : DomState) (railId : String) : Option Nat :=
  if railId ∈ s.railIds then
    firstIdxWhere (eligCardIn railId) s.cards
  else none

/-- The international self-toggle handler `onIntlSelfChange`: early return
when the checkbox is absent.  Checked: unhide the BDT wrapper, disable
the intl recipient inputs, filter the intl-to rail to BDT and select the
first visible enabled card when one exists.  Unchecked: hide the wrapper,
enable the inputs, clear the `intl-to-id` hidden field and drop
`selected` from every card of the intl-to rail. -/
def onIntlSelfChange (s : DomState) : DomState :=
  match s.selfChk with
  | none => s
  | some checked =>
    if checked then
      let s1 := { s with selfChk := some true, selfWrapDNone := s.selfWrapDNone.map (fun _ => false) }
      let s2 := setRecipientDisabled s1 "" true
      let s3 := filterRailByCurrency s2 "rail-intl-to" (some "BDT")
      match findFirstEligible s3 "rail-intl-to" with
      | some i => selectCard s3 i (optsFor "intl-to")
      | none => s3
    else
      let s1 := { s with selfWrapDNone := s.selfWrapDNone.map (fun _ => true) }
      let s2 := setRecipientDisabled s1 "" false
      let s3 := { s2 with fields := setField s2.fields "intl-to-id" "" }
      if "rail-intl-to" ∈ s3.railIds then
        { s3 with cards := s3.cards.map (fun c =>
          if c.container = "rail-intl-to" then { c with selected := false } else c) }
      else s3

/-- The local self-toggle handler `onLocalSelfChange`: early return when
the checkbox is absent, otherwise disable or enable the local recipient
inputs according to the checked state. -/
def onLocalSelfChange (s : DomState) : DomState :=
  match s.localSelfChk with
  | none => s
  | some b => setRecipientDisabled s "local-" b

/-- One step of the preselect tail of the script: select the first
visible, non-disabled card of the given rail group with the group's
bindings, when such a card exists. -/
def preselectStep (s : DomState) (group : String) : DomState :=
  match findFirstEligible s ("rail-" ++ group) with
  | some i => selectCard s i (optsFor group)
  | none => s

/-- The preselect tail of the script body: preselect in `local-from`,
then in `intl-from`. -/
def initPreselect (s : DomState) : DomState :=
  preselectStep (preselectStep s "local-from") "intl-from"

/-- Well-formedness of the DOM the page templates produce: every account
card sits inside the rail element named after its own rail group, and
that rail element exists. -/
def railsConsistent (s : DomState) : Prop :=
  ∀ c ∈ s.cards, c.container = "rail-" ++ c.group ∧ c.container ∈ s.railIds

instance (s : DomState) : Decidable (railsConsistent s) := by
  unfold railsConsistent; infer_instance

/-- An intl-to card that the self-toggle auto-select can pick: inside the
intl-to rail, enabled, and of currency BDT (such a card is exactly one
that is visible after the BDT filter). -/
def eligBDT (c : Card) : Bool :=
  c.container == "rail-intl-to" && !c.disabled && (jsToUpper (c.currency.getD "") == "BDT")

/-! ### Concrete sample states used by counterexamples and witnesses -/

/-- A rail with a disabled card (index 0) and a hidden card (index 1). -/
def c1s : DomState :=
  ⟨[⟨"local-to", "rail-local-to", some "9", some "KRW", false, true, false⟩,
    ⟨"local-to", "rail-local-to", some "8", some "KRW", false, false, true⟩],
   [("local-to-id", "")], [], [], ["rail-local-to"], none, none, none⟩

/-- An intl-from card plus a selected KRW card in the intl-to rail. -/
def c2s : DomState :=
  ⟨[⟨"intl-from", "rail-intl-from", some "1", some "KRW", false, false, false⟩,
    ⟨"intl-to", "rail-intl-to", some "2", some "KRW", true, false, false⟩],
   [("intl-from-id", "")], [], [], ["rail-intl-from", "rail-intl-to"], none, none, none⟩

/-- A single selected KRW card in a demo rail. -/
def c3s : DomState :=
  ⟨[⟨"demo", "rail-demo", some "1", some "KRW", true, false, false⟩],
   [], [], [], ["rail-demo"], none, none, none⟩

/-- An intl-to rail holding a hidden BDT card and a visible KRW card. -/
def c4s : DomState :=
  ⟨[⟨"intl-to", "rail-intl-to", some "2", some "BDT", false, false, true⟩,
    ⟨"intl-to", "rail-intl-to", some "3", some "KRW", false, false, false⟩],
   [], [], [], ["rail-intl-to"], none, none, none⟩

/-- A KRW intl-from card used as the `fromCard` argument. -/
def c4from : Card := ⟨"intl-from", "rail-intl-from", some "1", some "KRW", true, false, false⟩

/-- A local-from card (id 1) and two local-to cards, one sharing id 1. -/
def c5s : DomState :=
  ⟨[⟨"local-from", "rail-local-from", some "1", some "KRW", false, false, false⟩,
    ⟨"local-to", "rail-local-to", some "1", some "KRW", false, false, false⟩,
    ⟨"local-to", "rail-local-to", some "2", some "KRW", false, true, false⟩],
   [("local-from-id", ""), ("local-currency", ""), ("local-to-id", "")],
   [], [], ["rail-local-from", "rail-local-to"], none, none, none⟩

/-- A checked intl self-checkbox with a hidden BDT card and a selected KRW
card in the intl-to rail, plus the recipient elements. -/
def c6s : DomState :=
  ⟨[⟨"intl-to", "rail-intl-to", some "5", some "BDT", false, false, true⟩,
    ⟨"intl-to", "rail-intl-to", some "6", some "KRW", true, false, false⟩],
   [("intl-to-id", "")],
   [("recipient-wrap", ⟨false, false⟩)],
   [("recipient_id", ⟨false, false⟩), ("recipient_name", ⟨false, false⟩)],
   ["rail-intl-to"], some true, some true, none⟩

/-- A disabled local-to card in a document with no local-from-id field. -/
def c7s : DomState :=
  ⟨[⟨"local-to", "rail-local-to", some "A", some "KRW", false, true, false⟩],
   [], [], [], ["rail-local-to"], none, none, none⟩

/-- A consistent four-rail document with one eligible card per rail and
all hidden fields present. -/
def c8s : DomState :=
  ⟨[⟨"local-from", "rail-local-from", some "1", some "KRW", false, false, false⟩,
    ⟨"local-to", "rail-local-to", some "2", some "KRW", false, false, false⟩,
    ⟨"intl-from", "rail-intl-from", some "3", some "KRW", false, false, false⟩,
    ⟨"intl-to", "rail-intl-to", some "4", some "BDT", false, false, false⟩],
   [("local-from-id", ""), ("local-currency", ""), ("intl-from-id", ""),
    ("intl-to-id", ""), ("local-to-id", "")],
   [], [], ["rail-local-from", "rail-local-to", "rail-intl-from", "rail-intl-to"],
   none, none, none⟩

/-- A local-from card whose account id 7 is already the selected local-to
destination (the local-to card with id 7 is selected and bound). -/
def c9s : DomState :=
  ⟨[⟨"local-from", "rail-local-from", some "7", some "KRW", false, false, false⟩,
    ⟨"local-to", "rail-local-to", some "3", some "KRW", false, false, false⟩,
    ⟨"local-to", "rail-local-to", some "7", some "KRW", true, false, false⟩],
   [("local-from-id", ""), ("local-currency", ""), ("local-to-id", "7")],
   [], [], ["rail-local-from", "rail-local-to"], none, none, none⟩

/-- A local-from card carrying no currency attribute, with both hidden
fields present and the currency field holding a previous value. -/
def c10s : DomState :=
  ⟨[⟨"local-from", "rail-local-from", some "4", none, false, false, false⟩],
   [("local-from-id", "0"), ("local-currency", "KRW")],
   [], [], ["rail-local-from", "rail-local-to"], none, none, none⟩

/-! ### Lemmas about the element-list primitives -/

theorem lookupId_cons {α : Type} (a : String × α) (l : List (String × α)) (k : String) :
    lookupId (a :: l) k = if a.1 == k then some a.2 else lookupId l k := by
  simp only [lookupId, List.find?_cons]
  cases h : (a.1 == k) <;> simp [h]

theorem condSet_cons {α : Type} (P : String → Bool) (w : α) (a : String × α) (l : List (String × α)) :
    condSet P w (a :: l) = (if P a.1 then (a.1, w) else a) :: condSet P w l := by
  simp [condSet]

theorem lookupId_condSet_pos {α : Type} (P : String → Bool) (w : α) (l : List (String × α))
    (k : String) (h : P k = true) :
    lookupId (condSet P w l) k = (lookupId l k).map (fun _ => w) := by
  induction l with
  | nil => rfl
  | cons a rest ih =>
    rw [condSet_cons, lookupId_cons, lookupId_cons]
    by_cases hk : a.1 = k
    · subst hk
      simp [h]
    · have hbeq : (a.1 == k) = false := by simp [hk]
      by_cases hP : P a.1 = true
      · simp [hP, hbeq, ih]
      · simp at hP
        simp [hP, hbeq, ih]

theorem lookupId_condSet_neg {α : Type} (P : String → Bool) (w : α) (l : List (String × α))
    (k : String) (h : P k = false) :
    lookupId (condSet P w l) k = lookupId l k := by
  induction l with
  | nil => rfl
  | cons a rest ih =>
    rw [condSet_cons, lookupId_cons, lookupId_cons]
    by_cases hk : a.1 = k
    · subst hk
      simp [h]
    · have hbeq : (a.1 == k) = false := by simp [hk]
      by_cases hP : P a.1 = true
      · simp [hP, hbeq, ih]
      · simp at hP
        simp [hP, hbeq, ih]

theorem lookupId_setField_self (fs : List (String × String)) (fid v : String) :
    lookupId (setField fs fid v) fid = (lookupId fs fid).map (fun _ => v) :=
  lookupId_condSet_pos _ _ _ _ (by simp)

theorem lookupId_setField_ne (fs : List (String × String)) (fid v gid : String) (h : gid ≠ fid) :
    lookupId (setField fs fid v) gid = lookupId fs gid :=
  lookupId_condSet_neg _ _ _ _ (by simp [h])

/-! ### Per-card field-effect lemmas -/

theorem applyFilterCard_group (r : String) (a : Option String) (c : Card) :
    (applyFilterCard r a c).group = c.group := by
  unfold applyFilterCard; split <;> rfl

theorem applyFilterCard_container (r : String) (a : Option String) (c : Card) :
    (applyFilterCard r a c).container = c.container := by
  unfold applyFilterCard; split <;> rfl

theorem applyFilterCard_accountId (r : String) (a : Option String) (c : Card) :
    (applyFilterCard r a c).accountId = c.accountId := by
  unfold applyFilterCard; split <;> rfl

theorem applyFilterCard_currency (r : String) (a : Option String) (c : Card) :
    (applyFilterCard r a c).currency = c.currency := by
  unfold applyFilterCard; split <;> rfl

theorem applyFilterCard_disabled (r : String) (a : Option String) (c : Card) :
    (applyFilterCard r a c).disabled = c.disabled := by
  unfold applyFilterCard; split <;> rfl

theorem applyFilterCard_of_ne (r : String) (a : Option String) (c : Card)
    (h : ¬ c.container = r) : applyFilterCard r a c = c := by
  unfold applyFilterCard; simp [h]

theorem showAllCard_group (r : String) (c : Card) : (showAllCard r c).group = c.group := by
  unfold showAllCard; split <;> rfl

theorem showAllCard_container (r : String) (c : Card) : (showAllCard r c).container = c.container := by
  unfold showAllCard; split <;> rfl

theorem showAllCard_accountId (r : String) (c : Card) : (showAllCard r c).accountId = c.accountId := by
  unfold showAllCard; split <;> rfl

theorem showAllCard_currency (r : String) (c : Card) : (showAllCard r c).currency = c.currency := by
  unfold showAllCard; split <;> rfl

theorem showAllCard_disabled (r : String) (c : Card) : (showAllCard r c).disabled = c.disabled := by
  unfold showAllCard; split <;> rfl

theorem showAllCard_selected (r : String) (c : Card) : (showAllCard r c).selected = c.selected := by
  unfold showAllCard; split <;> rfl

theorem disableCard_group (fid : String) (c : Card) : (disableCard fid c).group = c.group := by
  unfold disableCard; split
  · split <;> rfl
  · rfl

theorem disableCard_container (fid : String) (c : Card) : (disableCard fid c).container = c.container := by
  unfold disableCard; split
  · split <;> rfl
  · rfl

theorem disableCard_accountId (fid : String) (c : Card) : (disableCard fid c).accountId = c.accountId := by
  unfold disableCard; split
  · split <;> rfl
  · rfl

theorem disableCard_currency (fid : String) (c : Card) : (disableCard fid c).currency = c.currency := by
  unfold disableCard; split
  · split <;> rfl
  · rfl

theorem disableCard_selected (fid : String) (c : Card) : (disableCard fid c).selected = c.selected := by
  unfold disableCard; split
  · split <;> rfl
  · rfl

theorem disableCard_dNone (fid : String) (c : Card) : (disableCard fid c).dNone = c.dNone := by
  unfold disableCard; split
  · split <;> rfl
  · rfl

theorem disableCard_of_ne (fid : String) (c : Card) (h : ¬ c.group = "local-to") :
    disableCard fid c = c := by
  unfold disableCard; simp [h]

theorem disableCard_disabled (fid : String) (c : Card) (h : c.group = "local-to") :
    (disableCard fid c).disabled = (c.accountId == some fid) := by
  unfold disableCard
  by_cases ha : c.accountId = some fid <;> simp [h, ha]

theorem clearGroupCard_group (g : String) (c : Card) : (clearGroupCard g c).group = c.group := by
  unfold clearGroupCard; split <;> rfl

theorem clearGroupCard_container (g : String) (c : Card) : (clearGroupCard g c).container = c.container := by
  unfold clearGroupCard; split <;> rfl

theorem clearGroupCard_accountId (g : String) (c : Card) : (clearGroupCard g c).accountId = c.accountId := by
  unfold clearGroupCard; split <;> rfl

theorem clearGroupCard_currency (g : String) (c : Card) : (clearGroupCard g c).currency = c.currency := by
  unfold clearGroupCard; split <;> rfl

theorem clearGroupCard_disabled (g : String) (c : Card) : (clearGroupCard g c).disabled = c.disabled := by
  unfold clearGroupCard; split <;> rfl

theorem clearGroupCard_dNone (g : String) (c : Card) : (clearGroupCard g c).dNone = c.dNone := by
  unfold clearGroupCard; split <;> rfl

theorem clearGroupCard_of_ne (g : String) (c : Card) (h : ¬ c.group = g) :
    clearGroupCard g c = c := by
  unfold clearGroupCard; simp [h]

theorem clearGroupCard_of_eq (g : String) (c : Card) (h : c.group = g) :
    clearGroupCard g c = { c with selected := false } := by
  unfold clearGroupCard; simp [h]

/-! ### Frame lemmas: components each operation leaves unchanged -/

theorem filterRail_fields (s : DomState) (r : String) (a : Option String) :
    (filterRailByCurrency s r a).fields = s.fields := by
  unfold filterRailByCurrency; split <;> rfl

theorem filterRail_wraps (s : DomState) (r : String) (a : Option String) :
    (filterRailByCurrency s r a).wraps = s.wraps := by
  unfold filterRailByCurrency; split <;> rfl

theorem filterRail_inputs (s : DomState) (r : String) (a : Option String) :
    (filterRailByCurrency s r a).inputs = s.inputs := by
  unfold filterRailByCurrency; split <;> rfl

theorem filterRail_railIds (s : DomState) (r : String) (a : Option String) :
    (filterRailByCurrency s r a).railIds = s.railIds := by
  unfold filterRailByCurrency; split <;> rfl

theorem filterRail_selfChk (s : DomState) (r : String) (a : Option String) :
    (filterRailByCurrency s r a).selfChk = s.selfChk := by
  unfold filterRailByCurrency; split <;> rfl

theorem filterRail_selfWrapDNone (s : DomState) (r : String) (a : Option String) :
    (filterRailByCurrency s r a).selfWrapDNone = s.selfWrapDNone := by
  unfold filterRailByCurrency; split <;> rfl

theorem filterRail_localSelfChk (s : DomState) (r : String) (a : Option String) :
    (filterRailByCurrency s r a).localSelfChk = s.localSelfChk := by
  unfold filterRailByCurrency; split <;> rfl

theorem filterRail_cards_mem (s : DomState) (r : String) (a : Option String) (h : r ∈ s.railIds) :
    (filterRailByCurrency s r a).cards = s.cards.map (applyFilterCard r (normAllow a)) := by
  unfold filterRailByCurrency; simp [h]

theorem filterRail_not_mem (s : DomState) (r : String) (a : Option String) (h : r ∉ s.railIds) :
    filterRailByCurrency s r a = s := by
  unfold filterRailByCurrency; simp [h]

theorem showAll_fields (s : DomState) (r : String) :
    (showAllCardsInRail s r).fields = s.fields := by
  unfold showAllCardsInRail; split <;> rfl

theorem showAll_wraps (s : DomState) (r : String) :
    (showAllCardsInRail s r).wraps = s.wraps := by
  unfold showAllCardsInRail; split <;> rfl

theorem showAll_inputs (s : DomState) (r : String) :
    (showAllCardsInRail s r).inputs = s.inputs := by
  unfold showAllCardsInRail; split <;> rfl

theorem showAll_railIds (s : DomState) (r : String) :
    (showAllCardsInRail s r).railIds = s.railIds := by
  unfold showAllCardsInRail; split <;> rfl

theorem showAll_selfChk (s : DomState) (r : String) :
    (showAllCardsInRail s r).selfChk = s.selfChk := by
  unfold showAllCardsInRail; split <;> rfl

theorem showAll_selfWrapDNone (s : DomState) (r : String) :
    (showAllCardsInRail s r).selfWrapDNone = s.selfWrapDNone := by
  unfold showAllCardsInRail; split <;> rfl

theorem showAll_localSelfChk (s : DomState) (r : String) :
    (showAllCardsInRail s r).localSelfChk = s.localSelfChk := by
  unfold showAllCardsInRail; split <;> rfl

theorem showAll_cards_mem (s : DomState) (r : String) (h : r ∈ s.railIds) :
    (showAllCardsInRail s r).cards = s.cards.map (showAllCard r) := by
  unfold showAllCardsInRail; simp [h]

theorem showAll_not_mem (s : DomState) (r : String) (h : r ∉ s.railIds) :
    showAllCardsInRail s r = s := by
  unfold showAllCardsInRail; simp [h]

theorem disables_fields (s : DomState) : (applyLocalToDisables s).fields = s.fields := rfl

theorem disables_wraps (s : DomState) : (applyLocalToDisables s).wraps = s.wraps := rfl

theorem disables_inputs (s : DomState) : (applyLocalToDisables s).inputs = s.inputs := rfl

theorem disables_railIds (s : DomState) : (applyLocalToDisables s).railIds = s.railIds := rfl

theorem disables_selfChk (s : DomState) : (applyLocalToDisables s).selfChk = s.selfChk := rfl

theorem disables_selfWrapDNone (s : DomState) :
    (applyLocalToDisables s).selfWrapDNone = s.selfWrapDNone := rfl

theorem disables_localSelfChk (s : DomState) :
    (applyLocalToDisables s).localSelfChk = s.localSelfChk := rfl

theorem disables_cards (s : DomState) :
    (applyLocalToDisables s).cards
      = s.cards.map (disableCard ((getField s "local-from-id").getD "")) := rfl

theorem localFilter_fields (s : DomState) (fc : Option Card) :
    (applyLocalCurrencyFilter s fc).fields = s.fields := by
  unfold applyLocalCurrencyFilter; dsimp only; split
  · exact showAll_fields _ _
  · exact filterRail_fields _ _ _

theorem localFilter_wraps (s : DomState) (fc : Option Card) :
    (applyLocalCurrencyFilter s fc).wraps = s.wraps := by
  unfold applyLocalCurrencyFilter; dsimp only; split
  · exact showAll_wraps _ _
  · exact filterRail_wraps _ _ _

theorem localFilter_inputs (s : DomState) (fc : Option Card) :
    (applyLocalCurrencyFilter s fc).inputs = s.inputs := by
  unfold applyLocalCurrencyFilter; dsimp only; split
  · exact showAll_inputs _ _
  · exact filterRail_inputs _ _ _

theorem localFilter_railIds (s : DomState) (fc : Option Card) :
    (applyLocalCurrencyFilter s fc).railIds = s.railIds := by
  unfold applyLocalCurrencyFilter; dsimp only; split
  · exact showAll_railIds _ _
  · exact filterRail_railIds _ _ _

theorem localFilter_selfChk (s : DomState) (fc : Option Card) :
    (applyLocalCurrencyFilter s fc).selfChk = s.selfChk := by
  unfold applyLocalCurrencyFilter; dsimp only; split
  · exact showAll_selfChk _ _
  · exact filterRail_selfChk _ _ _

theorem localFilter_selfWrapDNone (s : DomState) (fc : Option Card) :
    (applyLocalCurrencyFilter s fc).selfWrapDNone = s.selfWrapDNone := by
  unfold applyLocalCurrencyFilter; dsimp only; split
  · exact showAll_selfWrapDNone _ _
  · exact filterRail_selfWrapDNone _ _ _

theorem localFilter_localSelfChk (s : DomState) (fc : Option Card) :
    (applyLocalCurrencyFilter s fc).localSelfChk = s.localSelfChk := by
  unfold applyLocalCurrencyFilter; dsimp only; split
  · exact showAll_localSelfChk _ _
  · exact filterRail_localSelfChk _ _ _

theorem intlFilter_fields (s : DomState) (fc : Option Card) :
    (applyIntlToCurrencyFilter s fc).fields = s.fields := by
  unfold applyIntlToCurrencyFilter; dsimp only; split
  · exact showAll_fields _ _
  · split
    · exact filterRail_fields _ _ _
    · exact showAll_fields _ _

theorem intlFilter_wraps (s : DomState) (fc : Option Card) :
    (applyIntlToCurrencyFilter s fc).wraps = s.wraps := by
  unfold applyIntlToCurrencyFilter; dsimp only; split
  · exact showAll_wraps _ _
  · split
    · exact filterRail_wraps _ _ _
    · exact showAll_wraps _ _

theorem intlFilter_inputs (s : DomState) (fc : Option Card) :
    (applyIntlToCurrencyFilter s fc).inputs = s.inputs := by
  unfold applyIntlToCurrencyFilter; dsimp only; split
  · exact showAll_inputs _ _
  · split
    · exact filterRail_inputs _ _ _
    · exact showAll_inputs _ _

theorem intlFilter_railIds (s : DomState) (fc : Option Card) :
    (applyIntlToCurrencyFilter s fc).railIds = s.railIds := by
  unfold applyIntlToCurrencyFilter; dsimp only; split
  · exact showAll_railIds _ _
  · split
    · exact filterRail_railIds _ _ _
    · exact showAll_railIds _ _

theorem intlFilter_selfChk (s : DomState) (fc : Option Card) :
    (applyIntlToCurrencyFilter s fc).selfChk = s.selfChk := by
  unfold applyIntlToCurrencyFilter; dsimp only; split
  · exact showAll_selfChk _ _
  · split
    · exact filterRail_selfChk _ _ _
    · exact showAll_selfChk _ _

theorem intlFilter_selfWrapDNone (s : DomState) (fc : Option Card) :
    (applyIntlToCurrencyFilter s fc).selfWrapDNone = s.selfWrapDNone := by
  unfold applyIntlToCurrencyFilter; dsimp only; split
  · exact showAll_selfWrapDNone _ _
  · split
    · exact filterRail_selfWrapDNone _ _ _
    · exact showAll_selfWrapDNone _ _

theorem intlFilter_localSelfChk (s : DomState) (fc : Option Card) :
    (applyIntlToCurrencyFilter s fc).localSelfChk = s.localSelfChk := by
  unfold applyIntlToCurrencyFilter; dsimp only; split
  · exact showAll_localSelfChk _ _
  · split
    · exact filterRail_localSelfChk _ _ _
    · exact showAll_localSelfChk _ _

theorem setRecip_cards (s : DomState) (sc : String) (d : Bool) :
    (setRecipientDisabled s sc d).cards = s.cards := rfl

theorem setRecip_fields (s : DomState) (sc : String) (d : Bool) :
    (setRecipientDisabled s sc d).fields = s.fields := rfl

theorem setRecip_railIds (s : DomState) (sc : String) (d : Bool) :
    (setRecipientDisabled s sc d).railIds = s.railIds := rfl

theorem setRecip_selfChk (s : DomState) (sc : String) (d : Bool) :
    (setRecipientDisabled s sc d).selfChk = s.selfChk := rfl

theorem setRecip_selfWrapDNone (s : DomState) (sc : String) (d : Bool) :
    (setRecipientDisabled s sc d).selfWrapDNone = s.selfWrapDNone := rfl

theorem setRecip_localSelfChk (s : DomState) (sc : String) (d : Bool) :
    (setRecipientDisabled s sc d).localSelfChk = s.localSelfChk := rfl

theorem setRecip_wraps (s : DomState) (sc : String) (d : Bool) :
    (setRecipientDisabled s sc d).wraps
      = condSet (fun k => k == sc ++ "recipient-wrap") (WrapState.mk d d) s.wraps := rfl

theorem setRecip_inputs (s : DomState) (sc : String) (d : Bool) :
    (setRecipientDisabled s sc d).inputs
      = condSet (fun k => k == sc ++ "recipient_id" || k == sc ++ "recipient_name")
          (InputState.mk d d) s.inputs := rfl

/-! ### Frame lemmas for the callback runner and selectCard -/

theorem runCb_fields (cb : SelectCb) (card : Card) (s : DomState) :
    (runSelectCb cb card s).fields = s.fields := by
  cases cb <;> simp [runSelectCb, localFilter_fields, disables_fields, intlFilter_fields]

theorem runCb_wraps (cb : SelectCb) (card : Card) (s : DomState) :
    (runSelectCb cb card s).wraps = s.wraps := by
  cases cb <;> simp [runSelectCb, localFilter_wraps, disables_wraps, intlFilter_wraps]

theorem runCb_inputs (cb : SelectCb) (card : Card) (s : DomState) :
    (runSelectCb cb card s).inputs = s.inputs := by
  cases cb <;> simp [runSelectCb, localFilter_inputs, disables_inputs, intlFilter_inputs]

theorem runCb_railIds (cb : SelectCb) (card : Card) (s : DomState) :
    (runSelectCb cb card s).railIds = s.railIds := by
  cases cb <;> simp [runSelectCb, localFilter_railIds, disables_railIds, intlFilter_railIds]

theorem runCb_selfChk (cb : SelectCb) (card : Card) (s : DomState) :
    (runSelectCb cb card s).selfChk = s.selfChk := by
  cases cb <;> simp [runSelectCb, localFilter_selfChk, disables_selfChk, intlFilter_selfChk]

theorem runCb_selfWrapDNone (cb : SelectCb) (card : Card) (s : DomState) :
    (runSelectCb cb card s).selfWrapDNone = s.selfWrapDNone := by
  cases cb <;>
    simp [runSelectCb, localFilter_selfWrapDNone, disables_selfWrapDNone, intlFilter_selfWrapDNone]

theorem runCb_localSelfChk (cb : SelectCb) (card : Card) (s : DomState) :
    (runSelectCb cb card s).localSelfChk = s.localSelfChk := by
  cases cb <;>
    simp [runSelectCb, localFilter_localSelfChk, disables_localSelfChk, intlFilter_localSelfChk]

theorem selectCard_of_get (s : DomState) (i : Nat) (o : SelectOptions) (card : Card)
    (h : s.cards[i]? = some card) :
    selectCard s i o = selectCardResolved s i card o := by
  unfold selectCard; rw [h]

theorem selectCard_of_none (s : DomState) (i : Nat) (o : SelectOptions)
    (h : s.cards[i]? = none) :
    selectCard s i o = s := by
  unfold selectCard; rw [h]

theorem selectCardResolved_fields (s : DomState) (i : Nat) (card : Card) (o : SelectOptions) :
    (selectCardResolved s i card o).fields
      = writeHiddenCurrency o card (writeHiddenId o card s.fields) := by
  unfold selectCardResolved; rw [runCb_fields]

theorem selectCardResolved_railIds (s : DomState) (i : Nat) (card : Card) (o : SelectOptions) :
    (selectCardResolved s i card o).railIds = s.railIds := by
  unfold selectCardResolved; rw [runCb_railIds]

theorem selectCardResolved_wraps (s : DomState) (i : Nat) (card : Card) (o : SelectOptions) :
    (selectCardResolved s i card o).wraps = s.wraps := by
  unfold selectCardResolved; rw [runCb_wraps]

theorem selectCardResolved_inputs (s : DomState) (i : Nat) (card : Card) (o : SelectOptions) :
    (selectCardResolved s i card o).inputs = s.inputs := by
  unfold selectCardResolved; rw [runCb_inputs]

theorem selectCardResolved_selfChk (s : DomState) (i : Nat) (card : Card) (o : SelectOptions) :
    (selectCardResolved s i card o).selfChk = s.selfChk := by
  unfold selectCardResolved; rw [runCb_selfChk]

theorem selectCardResolved_cards (s : DomState) (i : Nat) (card : Card) (o : SelectOptions) :
    (selectCardResolved s i card o).cards
      = (runSelectCb o.cb card
          { s with
            cards := (s.cards.map (clearGroupCard card.group)).set i { card with selected := true }
            fields := writeHiddenCurrency o card (writeHiddenId o card s.fields) }).cards := rfl

/-! ### Selected-state tracking through the operations -/

theorem applyFilterCard_sel (r : String) (a : Option String) (c : Card) :
    (applyFilterCard r a c).selected = true → c.selected = true := by
  unfold applyFilterCard; split
  · dsimp only
    intro h
    exact ((Bool.and_eq_true _ _).mp h).2
  · exact fun h => h

theorem clearGroupCard_sel (g : String) (c : Card) :
    (clearGroupCard g c).selected = true → c.selected = true := by
  unfold clearGroupCard; split
  · intro h; exact absurd h (by simp)
  · exact fun h => h

/-- Tracking relation on single cards: the rail group is unchanged and
the selected state can only have been dropped. -/
def SelTrack (c' c : Card) : Prop :=
  c'.group = c.group ∧ (c'.selected = true → c.selected = true)

/-- Tracking relation between whole states: pointwise `SelTrack` between
the card lists. -/
def SelTrackS (t' t : DomState) : Prop :=
  ∀ (j : Nat) (c' : Card), t'.cards[j]? = some c' → ∃ c, t.cards[j]? = some c ∧ SelTrack c' c

theorem selTrackS_refl (t : DomState) : SelTrackS t t := by
  unfold SelTrackS SelTrack
  exact fun _ c' h => ⟨c', h, rfl, fun hs => hs⟩

theorem selTrackS_trans {a b c : DomState} (h1 : SelTrackS a b) (h2 : SelTrackS b c) :
    SelTrackS a c := by
  unfold SelTrackS SelTrack at h1 h2 ⊢
  intro j c' h
  obtain ⟨d, hd, hg1, hs1⟩ := h1 j c' h
  obtain ⟨e, he, hg2, hs2⟩ := h2 j d hd
  exact ⟨e, he, hg1.trans hg2, fun hs => hs2 (hs1 hs)⟩

theorem selTrackS_of_map {t' t : DomState} (f : Card → Card)
    (hc : t'.cards = t.cards.map f)
    (hf : ∀ c, (f c).group = c.group ∧ ((f c).selected = true → c.selected = true)) :
    SelTrackS t' t := by
  unfold SelTrackS SelTrack
  intro j c' h
  rw [hc, List.getElem?_map] at h
  cases hg : t.cards[j]? with
  | none => rw [hg] at h; simp at h
  | some c =>
    rw [hg] at h
    simp only [Option.map_some'] at h
    cases h
    exact ⟨c, rfl, (hf c).1, (hf c).2⟩

theorem selTrackS_filterRail (t : DomState) (r : String) (a : Option String) :
    SelTrackS (filterRailByCurrency t r a) t := by
  by_cases h : r ∈ t.railIds
  · exact selTrackS_of_map _ (filterRail_cards_mem t r a h)
      (fun c => ⟨applyFilterCard_group r _ c, applyFilterCard_sel r _ c⟩)
  · rw [filterRail_not_mem t r a h]; exact selTrackS_refl t

theorem selTrackS_showAll (t : DomState) (r : String) :
    SelTrackS (showAllCardsInRail t r) t := by
  by_cases h : r ∈ t.railIds
  · exact selTrackS_of_map _ (showAll_cards_mem t r h)
      (fun c => ⟨showAllCard_group r c, by rw [showAllCard_selected]; exact fun hs => hs⟩)
  · rw [showAll_not_mem t r h]; exact selTrackS_refl t

theorem selTrackS_disables (t : DomState) :
    SelTrackS (applyLocalToDisables t) t :=
  selTrackS_of_map _ (disables_cards t)
    (fun c => ⟨disableCard_group _ c, by rw [disableCard_selected]; exact fun hs => hs⟩)

theorem selTrackS_localFilter (t : DomState) (fc : Option Card) :
    SelTrackS (applyLocalCurrencyFilter t fc) t := by
  unfold applyLocalCurrencyFilter; dsimp only; split
  · exact selTrackS_showAll t _
  · exact selTrackS_filterRail t _ _

theorem selTrackS_intlFilter (t : DomState) (fc : Option Card) :
    SelTrackS (applyIntlToCurrencyFilter t fc) t := by
  unfold applyIntlToCurrencyFilter; dsimp only; split
  · exact selTrackS_showAll t _
  · split
    · exact selTrackS_filterRail t _ _
    · exact selTrackS_showAll t _

theorem selTrackS_runCb (cb : SelectCb) (card : Card) (t : DomState) :
    SelTrackS (runSelectCb cb card t) t := by
  cases cb with
  | noCb => exact selTrackS_refl t
  | localFromCb =>
    exact selTrackS_trans (selTrackS_localFilter _ _) (selTrackS_disables t)
  | intlFromCb => exact selTrackS_intlFilter t _

/-! ### The at-most-one-selected-per-rail invariant -/

/-- Two cards do not violate the invariant: they are not both selected in
the same rail group. -/
def SelOk (c d : Card) : Prop :=
  ¬(c.selected = true ∧ d.selected = true ∧ c.group = d.group)

/-- The invariant: at most one selected card per rail group, phrased as
pairwise compatibility of the card list. -/
def atMostOne (s : DomState) : Prop :=
  s.cards.Pairwise SelOk

instance (c d : Card) : Decidable (SelOk c d) := by
  unfold SelOk; infer_instance

instance (s : DomState) : Decidable (atMostOne s) := by
  unfold atMostOne; infer_instance

theorem atMostOne_of_selTrackS {t' t : DomState} (h : SelTrackS t' t) (ha : atMostOne t) :
    atMostOne t' := by
  unfold atMostOne at ha ⊢
  unfold SelTrackS SelTrack at h
  rw [List.pairwise_iff_get] at ha ⊢
  intro a b hab
  obtain ⟨c, hc, hgc, hsc⟩ :=
    h a.val (t'.cards.get a) (by rw [List.get_eq_getElem]; exact List.getElem?_eq_getElem a.isLt)
  obtain ⟨d, hd, hgd, hsd⟩ :=
    h b.val (t'.cards.get b) (by rw [List.get_eq_getElem]; exact List.getElem?_eq_getElem b.isLt)
  obtain ⟨hcl, hceq⟩ := List.getElem?_eq_some.mp hc
  obtain ⟨hdl, hdeq⟩ := List.getElem?_eq_some.mp hd
  have hok : SelOk c d := by
    have := ha ⟨a.val, hcl⟩ ⟨b.val, hdl⟩ hab
    rw [List.get_eq_getElem, List.get_eq_getElem] at this
    simp only [hceq, hdeq] at this
    exact this
  intro hviol
  obtain ⟨p1, p2, p3⟩ := hviol
  exact hok ⟨hsc p1, hsd p2, by rw [← hgc, ← hgd]; exact p3⟩

theorem pairwise_selOk_map {f : Card → Card}
    (hf : ∀ c, (f c).group = c.group ∧ ((f c).selected = true → c.selected = true))
    {l : List Card} (h : l.Pairwise SelOk) : (l.map f).Pairwise SelOk := by
  rw [List.pairwise_map]
  refine h.imp ?_
  intro a b hab hviol
  obtain ⟨p1, p2, p3⟩ := hviol
  exact hab ⟨(hf a).2 p1, (hf b).2 p2, by rw [← (hf a).1, ← (hf b).1]; exact p3⟩

theorem pairwise_selOk_set {l : List Card} {i : Nat} {v : Card} (h : l.Pairwise SelOk)
    (hv : ∀ (j : Nat) (d : Card), j ≠ i → l[j]? = some d → d.selected = true → ¬ d.group = v.group) :
    (l.set i v).Pairwise SelOk := by
  rw [List.pairwise_iff_get] at h ⊢
  intro a b hab
  have ha' : a.val < l.length := by
    have := a.isLt; simpa [List.length_set] using this
  have hb' : b.val < l.length := by
    have := b.isLt; simpa [List.length_set] using this
  rw [List.get_eq_getElem, List.get_eq_getElem, List.getElem_set, List.getElem_set]
  have habv : a.val < b.val := hab
  by_cases hia : i = a.val
  · have hib : ¬ i = b.val := by omega
    rw [if_pos hia, if_neg hib]
    intro hviol
    obtain ⟨p1, p2, p3⟩ := hviol
    exact hv b.val l[b.val] (fun he => hib he.symm) (List.getElem?_eq_getElem hb') p2 p3.symm
  · by_cases hib : i = b.val
    · rw [if_neg hia, if_pos hib]
      intro hviol
      obtain ⟨p1, p2, p3⟩ := hviol
      exact hv a.val l[a.val] (fun he => hia he.symm) (List.getElem?_eq_getElem ha') p1 p3
    · rw [if_neg hia, if_neg hib]
      have hgot := h ⟨a.val, ha'⟩ ⟨b.val, hb'⟩ hab
      rw [List.get_eq_getElem, List.get_eq_getElem] at hgot
      exact hgot

theorem selTrackS_of_cards_eq {t' t : DomState} (h : t'.cards = t.cards) : SelTrackS t' t := by
  unfold SelTrackS SelTrack
  intro j c' hj
  rw [h] at hj
  exact ⟨c', hj, rfl, fun hs => hs⟩

theorem atMostOne_cards_eq {t' t : DomState} (h : t'.cards = t.cards) (ha : atMostOne t) :
    atMostOne t' := by
  unfold atMostOne at ha ⊢
  rw [h]
  exact ha

theorem atMostOne_filterRail (s : DomState) (r : String) (a : Option String)
    (h : atMostOne s) : atMostOne (filterRailByCurrency s r a) :=
  atMostOne_of_selTrackS (selTrackS_filterRail s r a) h

theorem atMostOne_showAll (s : DomState) (r : String) (h : atMostOne s) :
    atMostOne (showAllCardsInRail s r) :=
  atMostOne_of_selTrackS (selTrackS_showAll s r) h

theorem atMostOne_disables (s : DomState) (h : atMostOne s) :
    atMostOne (applyLocalToDisables s) :=
  atMostOne_of_selTrackS (selTrackS_disables s) h

theorem atMostOne_localFilter (s : DomState) (fc : Option Card) (h : atMostOne s) :
    atMostOne (applyLocalCurrencyFilter s fc) :=
  atMostOne_of_selTrackS (selTrackS_localFilter s fc) h

theorem atMostOne_intlFilter (s : DomState) (fc : Option Card) (h : atMostOne s) :
    atMostOne (applyIntlToCurrencyFilter s fc) :=
  atMostOne_of_selTrackS (selTrackS_intlFilter s fc) h

theorem atMostOne_setRecip (s : DomState) (sc : String) (d : Bool) (h : atMostOne s) :
    atMostOne (setRecipientDisabled s sc d) :=
  atMostOne_of_selTrackS (selTrackS_of_cards_eq (setRecip_cards s sc d)) h

theorem atMostOne_phase1 {s : DomState} {i : Nat} {card : Card}
    (hget : s.cards[i]? = some card) (h : atMostOne s) :
    ((s.cards.map (clearGroupCard card.group)).set i { card with selected := true }).Pairwise SelOk := by
  apply pairwise_selOk_set
  · exact pairwise_selOk_map
      (fun c => ⟨clearGroupCard_group _ c, clearGroupCard_sel _ c⟩) h
  · intro j d hj hd hsel
    rw [List.getElem?_map] at hd
    cases hcj : s.cards[j]? with
    | none => rw [hcj] at hd; simp at hd
    | some cj =>
      rw [hcj] at hd
      simp only [Option.map_some'] at hd
      cases hd
      by_cases hg : cj.group = card.group
      · rw [clearGroupCard_of_eq _ _ hg] at hsel
        simp at hsel
      · rw [clearGroupCard_of_ne _ _ hg] at hsel ⊢
        intro hgg
        exact hg hgg

theorem atMostOne_selectCardResolved (s : DomState) (i : Nat) (card : Card) (o : SelectOptions)
    (hget : s.cards[i]? = some card) (h : atMostOne s) :
    atMostOne (selectCardResolved s i card o) := by
  unfold selectCardResolved
  apply atMostOne_of_selTrackS (selTrackS_runCb o.cb card _)
  unfold atMostOne
  exact atMostOne_phase1 hget h

theorem atMostOne_selectCard (s : DomState) (i : Nat) (o : SelectOptions) (h : atMostOne s) :
    atMostOne (selectCard s i o) := by
  cases hget : s.cards[i]? with
  | none => rw [selectCard_of_none s i o hget]; exact h
  | some card =>
    rw [selectCard_of_get s i o card hget]
    exact atMostOne_selectCardResolved s i card o hget h

theorem atMostOne_onIntlSelfChange (s : DomState) (h : atMostOne s) :
    atMostOne (onIntlSelfChange s) := by
  unfold onIntlSelfChange
  cases s.selfChk with
  | none => exact h
  | some checked =>
    dsimp only
    by_cases hc : checked
    · rw [if_pos hc]
      split
      · apply atMostOne_selectCard
        apply atMostOne_filterRail
        apply atMostOne_setRecip
        exact atMostOne_cards_eq rfl h
      · apply atMostOne_filterRail
        apply atMostOne_setRecip
        exact atMostOne_cards_eq rfl h
    · rw [if_neg hc]
      split
      · refine atMostOne_of_selTrackS
          (selTrackS_of_map (fun c =>
            if c.container = "rail-intl-to" then { c with selected := false } else c) rfl ?_)
          (atMostOne_cards_eq rfl h)
        intro c
        constructor
        · by_cases hcc : c.container = "rail-intl-to" <;> simp [hcc]
        · by_cases hcc : c.container = "rail-intl-to" <;> simp [hcc]
      · exact atMostOne_cards_eq rfl h

theorem atMostOne_onLocalSelfChange (s : DomState) (h : atMostOne s) :
    atMostOne (onLocalSelfChange s) := by
  unfold onLocalSelfChange
  cases s.localSelfChk with
  | none => exact h
  | some b => exact atMostOne_setRecip s "local-" b h

theorem atMostOne_railClick (s : DomState) (g : String) (t : Option Nat) (h : atMostOne s) :
    atMostOne (railClick s g t) := by
  unfold railClick
  split
  · cases t with
    | none => exact h
    | some i =>
      dsimp only
      split
      · exact h
      · split
        · exact h
        · exact atMostOne_selectCard s i _ h
  · exact h

theorem atMostOne_preselectStep (s : DomState) (g : String) (h : atMostOne s) :
    atMostOne (preselectStep s g) := by
  unfold preselectStep
  cases hfind : findFirstEligible s ("rail-" ++ g) with
  | none => exact h
  | some i => exact atMostOne_selectCard s i _ h

/-! ### Properties of the first-match search -/

theorem firstIdxWhere_some_spec {p : Card → Bool} {l : List Card} {i : Nat}
    (h : firstIdxWhere p l = some i) :
    ∃ c, l[i]? = some c ∧ p c = true ∧
      ∀ (j : Nat) (d : Card), j < i → l[j]? = some d → p d = false := by
  induction l generalizing i with
  | nil => simp [firstIdxWhere] at h
  | cons c rest ih =>
    rw [firstIdxWhere] at h
    by_cases hc : p c
    · rw [if_pos hc] at h
      cases h
      exact ⟨c, by simp, hc, fun j d hj _ => absurd hj (Nat.not_lt_zero j)⟩
    · rw [if_neg hc] at h
      cases hr : firstIdxWhere p rest with
      | none => rw [hr] at h; simp at h
      | some i' =>
        rw [hr] at h
        simp only [Option.map_some'] at h
        cases h
        obtain ⟨d, hd, hpd, hlt⟩ := ih hr
        refine ⟨d, by simpa using hd, hpd, ?_⟩
        intro j e hj he
        cases j with
        | zero =>
          simp only [List.getElem?_cons_zero, Option.some.injEq] at he
          rw [← he]
          exact Bool.not_eq_true (p c) ▸ hc
        | succ j' =>
          have hj' : j' < i' := by omega
          exact hlt j' e hj' (by simpa using he)

theorem firstIdxWhere_none_spec {p : Card → Bool} {l : List Card}
    (h : firstIdxWhere p l = none) :
    ∀ (j : Nat) (c : Card), l[j]? = some c → p c = false := by
  induction l with
  | nil => intro j c hj; simp at hj
  | cons c rest ih =>
    rw [firstIdxWhere] at h
    by_cases hc : p c
    · rw [if_pos hc] at h; simp at h
    · rw [if_neg hc] at h
      intro j e he
      cases j with
      | zero =>
        simp only [List.getElem?_cons_zero, Option.some.injEq] at he
        rw [← he]
        exact Bool.not_eq_true (p c) ▸ hc
      | succ j' =>
        cases hr : firstIdxWhere p rest with
        | none => exact ih hr j' e (by simpa using he)
        | some i' => rw [hr] at h; simp at h

theorem firstIdxWhere_ext {p q : Card → Bool} :
    ∀ (l₁ l₂ : List Card), (∀ j : Nat, (l₁[j]?).map p = (l₂[j]?).map q) →
      firstIdxWhere p l₁ = firstIdxWhere q l₂ := by
  intro l₁
  induction l₁ with
  | nil =>
    intro l₂ h
    cases l₂ with
    | nil => rfl
    | cons d r₂ => have h0 := h 0; simp at h0
  | cons c r ih =>
    intro l₂ h
    cases l₂ with
    | nil => have h0 := h 0; simp at h0
    | cons d r₂ =>
      have h0 : p c = q d := by have := h 0; simpa using this
      have hrec : firstIdxWhere p r = firstIdxWhere q r₂ :=
        ih r₂ (fun j => by simpa using h (j + 1))
      rw [firstIdxWhere, firstIdxWhere, h0, hrec]

theorem firstIdxWhere_map {p : Card → Bool} (f : Card → Card) (l : List Card) :
    firstIdxWhere p (l.map f) = firstIdxWhere (fun c => p (f c)) l :=
  firstIdxWhere_ext _ _ (fun j => by rw [List.getElem?_map]; cases l[j]? <;> simp)

/-! ### Claim theorems -/

/-- C9: `applyLocalToDisables` changes only the `disabled` flag of
`local-to` cards — every other card field, every card outside the
`local-to` group, and every non-card component of the state are left
unchanged — and therefore a card that is simultaneously `disabled` and
`selected` is reachable by selecting, in `local-from`, the account that
is already the chosen (selected and bound) `local-to` destination: in the
concrete state `c9s` this yields a `local-to` card that is both disabled
and selected while its id stays in the `local-to-id` hidden field. -/
theorem claim9_disables_frame_and_reachable :
    (∀ (s : DomState),
      (∀ (j : Nat) (c : Card), s.cards[j]? = some c →
        ∃ c', (applyLocalToDisables s).cards[j]? = some c' ∧
          c'.group = c.group ∧ c'.container = c.container ∧
          c'.accountId = c.accountId ∧ c'.currency = c.currency ∧
          c'.selected = c.selected ∧ c'.dNone = c.dNone ∧
          (¬ c.group = "local-to" → c' = c)) ∧
      (applyLocalToDisables s).fields = s.fields ∧
      (applyLocalToDisables s).wraps = s.wraps ∧
      (applyLocalToDisables s).inputs = s.inputs ∧
      (applyLocalToDisables s).railIds = s.railIds ∧
      (applyLocalToDisables s).selfChk = s.selfChk ∧
      (applyLocalToDisables s).selfWrapDNone = s.selfWrapDNone ∧
      (applyLocalToDisables s).localSelfChk = s.localSelfChk) ∧
    ((c9s.cards[2]?).map (fun c => (c.accountId, c.selected, c.disabled))
        = some (some "7", true, false) ∧
      getField c9s "local-to-id" = some "7" ∧
      ((selectCard c9s 0 (optsFor "local-from")).cards[2]?).map
          (fun c => (c.disabled, c.selected)) = some (true, true) ∧
      getField (selectCard c9s 0 (optsFor "local-from")) "local-to-id" = some "7") := by
  constructor
  · intro s
    refine ⟨?_, disables_fields s, disables_wraps s, disables_inputs s, disables_railIds s,
      disables_selfChk s, disables_selfWrapDNone s, disables_localSelfChk s⟩
    intro j c hc
    refine ⟨disableCard ((getField s "local-from-id").getD "") c, ?_,
      disableCard_group _ c, disableCard_container _ c, disableCard_accountId _ c,
      disableCard_currency _ c, disableCard_selected _ c, disableCard_dNone _ c,
      fun hg => disableCard_of_ne _ c hg⟩
    rw [disables_cards, List.getElem?_map, hc]
    rfl
  · exact ⟨by decide, by decide, by decide, by decide⟩

/-- Witness for C9: the frame part applied at the concrete state `c9s`
and index 1 (a `local-to` card whose id does not match). -/
theorem claim9_witness :
    ∃ c', (applyLocalToDisables c9s).cards[1]? = some c' ∧ c'.selected = false := by
  obtain ⟨c', hc', _, _, _, _, hsel, _⟩ :=
    (claim9_disables_frame_and_reachable.1 c9s).1 1
      (Card.mk "local-to" "rail-local-to" (some "3") (some "KRW") false false false)
      (by decide)
  exact ⟨c', hc', by rw [hsel]⟩

/-- C10: `selectCard` writes the bound currency hidden field only when the
selected card carries a truthy currency attribute: selecting a
`local-from` card with no currency attribute leaves the `local-currency`
field exactly as it was (the previously written currency), while the
`local-from-id` field is still updated to the card's account id. -/
theorem claim10_currency_write_guard (s : DomState) (i : Nat) (c : Card)
    (hc : s.cards[i]? = some c) (hcur : c.currency = none) :
    getField (selectCard s i (optsFor "local-from")) "local-currency"
        = getField s "local-currency" ∧
    (∀ v, getField s "local-from-id" = some v →
      getField (selectCard s i (optsFor "local-from")) "local-from-id"
        = some (c.accountId.getD "")) := by
  have hopts : optsFor "local-from"
      = ⟨some "local-from-id", some "local-currency", SelectCb.localFromCb⟩ := by decide
  rw [selectCard_of_get s i _ c hc]
  have hf := selectCardResolved_fields s i c (optsFor "local-from")
  have hw : writeHiddenCurrency (optsFor "local-from") c (writeHiddenId (optsFor "local-from") c s.fields)
      = setField s.fields "local-from-id" (c.accountId.getD "") := by
    rw [hopts]
    unfold writeHiddenCurrency writeHiddenId
    simp [hcur]
  constructor
  · unfold getField
    rw [hf, hw]
    exact lookupId_setField_ne s.fields "local-from-id" _ "local-currency" (by decide)
  · intro v hv
    unfold getField at hv ⊢
    rw [hf, hw, lookupId_setField_self, hv]
    rfl

/-- Witness for C10: at the concrete state `c10s` (a currency-less
local-from card, previous currency KRW in the hidden field), the currency
field is untouched and the id field is updated. -/
theorem claim10_witness :
    getField (selectCard c10s 0 (optsFor "local-from")) "local-currency"
        = getField c10s "local-currency" ∧
    getField (selectCard c10s 0 (optsFor "local-from")) "local-from-id" = some "4" := by
  obtain ⟨h1, h2⟩ := claim10_currency_write_guard c10s 0
    (Card.mk "local-from" "rail-local-from" (some "4") none false false false)
    (by decide) (by decide)
  exact ⟨h1, h2 "0" (by decide)⟩

theorem filterRail_card_at {s : DomState} {railId : String} {a : Option String} {j : Nat}
    {c c' : Card} (hrail : railId ∈ s.railIds) (hc : s.cards[j]? = some c)
    (hc' : (filterRailByCurrency s railId a).cards[j]? = some c') :
    c' = applyFilterCard railId (normAllow a) c := by
  rw [filterRail_cards_mem s railId a hrail, List.getElem?_map, hc] at hc'
  simp only [Option.map_some', Option.some.injEq] at hc'
  exact hc'.symm

theorem showAll_card_at {s : DomState} {railId : String} {j : Nat}
    {c c' : Card} (hrail : railId ∈ s.railIds) (hc : s.cards[j]? = some c)
    (hc' : (showAllCardsInRail s railId).cards[j]? = some c') :
    c' = showAllCard railId c := by
  rw [showAll_cards_mem s railId hrail, List.getElem?_map, hc] at hc'
  simp only [Option.map_some', Option.some.injEq] at hc'
  exact hc'.symm

/-- C3 (amended): after `filterRailByCurrency(railId, allowedCurrency)` a
card of the rail is visible if and only if `allowedCurrency` is falsy —
null or the empty string, both meaning no filter — or the card's currency
equals it under case-insensitive comparison; and every card hidden after
the call has lost its `selected` state.  (The original claim allowed only
null as the no-filter case; the empty string behaves the same.) -/
theorem claim3_filter_visibility (s : DomState) (railId : String) (allowed : Option String)
    (hrail : railId ∈ s.railIds) :
    ∀ (j : Nat) (c c' : Card), s.cards[j]? = some c →
      (filterRailByCurrency s railId allowed).cards[j]? = some c' →
      c.container = railId →
      ((c'.dNone = false ↔
          (jsTruthy allowed = false ∨
            ∃ a, allowed = some a ∧ jsToUpper (c.currency.getD "") = jsToUpper a)) ∧
       (c'.dNone = true → c'.selected = false)) := by
  intro j c c' hc hc' hcont
  have he := filterRail_card_at hrail hc hc'
  subst he
  unfold applyFilterCard
  rw [if_pos hcont]
  cases allowed with
  | none =>
    simp [normAllow, jsTruthy]
  | some a =>
    by_cases ha : a = ""
    · subst ha
      simp [normAllow, jsTruthy]
    · simp only [normAllow, if_neg ha, jsTruthy]
      cases hbeq : (jsToUpper (c.currency.getD "") == jsToUpper a) with
      | true =>
        have hEq : jsToUpper (c.currency.getD "") = jsToUpper a := by simpa using hbeq
        simp [hEq]
      | false =>
        have hNe : ¬ jsToUpper (c.currency.getD "") = jsToUpper a := by
          simpa using hbeq
        simp [hNe, ha]

/-- C3 counterexample: calling the filter with the empty string — which is
neither null nor a matching currency code for the KRW card — leaves the
card visible, contradicting the claimed visible-iff condition. -/
theorem claim3_counterexample :
    (some "" : Option String) ≠ none ∧
    ¬ jsToUpper (((c3s.cards[0]?).bind (fun c => c.currency)).getD "") = jsToUpper "" ∧
    ((filterRailByCurrency c3s "rail-demo" (some "")).cards[0]?).map (fun c => c.dNone)
      = some false := by decide

/-- Witness for C3: filtering the demo rail to BDT hides the selected KRW
card and drops its selected state. -/
theorem claim3_witness :
    (Card.mk "demo" "rail-demo" (some "1") (some "KRW") false false true).dNone = true ∧
    (Card.mk "demo" "rail-demo" (some "1") (some "KRW") false false true).selected = false := by
  have h := claim3_filter_visibility c3s "rail-demo" (some "bdt") (by decide) 0
    (Card.mk "demo" "rail-demo" (some "1") (some "KRW") true false false)
    (Card.mk "demo" "rail-demo" (some "1") (some "KRW") false false true)
    (by decide) (by decide) (by decide)
  exact ⟨by decide, h.2 (by decide)⟩

/-- C4: `applyIntlToCurrencyFilter(fromCard)` makes the intl-to rail show
exactly the BDT cards when the from currency (upper-cased) is KRW,
exactly the KRW cards when it is BDT, and all cards when the currency is
neither code — which covers a null `fromCard` and a missing currency
attribute, both yielding the empty (falsy) currency. -/
theorem claim4_intl_opposite_filter (s : DomState) (fromCard : Option Card)
    (hrail : "rail-intl-to" ∈ s.railIds) :
    ∀ (j : Nat) (c c' : Card), s.cards[j]? = some c →
      (applyIntlToCurrencyFilter s fromCard).cards[j]? = some c' →
      c.container = "rail-intl-to" →
      ((jsToUpper ((fromCard.bind (fun d => d.currency)).getD "") = "KRW" →
          (c'.dNone = false ↔ jsToUpper (c.currency.getD "") = "BDT")) ∧
       (jsToUpper ((fromCard.bind (fun d => d.currency)).getD "") = "BDT" →
          (c'.dNone = false ↔ jsToUpper (c.currency.getD "") = "KRW")) ∧
       (¬ jsToUpper ((fromCard.bind (fun d => d.currency)).getD "") = "KRW" →
        ¬ jsToUpper ((fromCard.bind (fun d => d.currency)).getD "") = "BDT" →
          c'.dNone = false)) := by
  intro j c c' hc hc' hcont
  unfold applyIntlToCurrencyFilter at hc'
  dsimp only at hc'
  by_cases hcur : jsToUpper ((fromCard.bind (fun d => d.currency)).getD "") = ""
  · rw [if_pos hcur] at hc'
    have he := showAll_card_at hrail hc hc'
    subst he
    refine ⟨fun hK => absurd (hcur.symm.trans hK) (by decide),
      fun hB => absurd (hcur.symm.trans hB) (by decide), fun _ _ => ?_⟩
    unfold showAllCard
    rw [if_pos hcont]
  · rw [if_neg hcur] at hc'
    by_cases hK : jsToUpper ((fromCard.bind (fun d => d.currency)).getD "") = "KRW"
    · rw [if_pos hK] at hc'
      dsimp only at hc'
      have he := filterRail_card_at hrail hc hc'
      subst he
      have hnorm : normAllow (some "BDT") = some "BDT" := by decide
      refine ⟨fun _ => ?_, fun hB => absurd (hK.symm.trans hB) (by decide),
        fun hnK _ => absurd hK hnK⟩
      unfold applyFilterCard
      rw [if_pos hcont, hnorm]
      cases hbeq : (jsToUpper (c.currency.getD "") == "BDT") with
      | true => simpa using hbeq
      | false => simp [(by simpa using hbeq : ¬ jsToUpper (c.currency.getD "") = "BDT")]
    · rw [if_neg hK] at hc'
      by_cases hB : jsToUpper ((fromCard.bind (fun d => d.currency)).getD "") = "BDT"
      · rw [if_pos hB] at hc'
        dsimp only at hc'
        have he := filterRail_card_at hrail hc hc'
        subst he
        have hnorm : normAllow (some "KRW") = some "KRW" := by decide
        refine ⟨fun hK' => absurd hK' hK, fun _ => ?_, fun _ hnB => absurd hB hnB⟩
        unfold applyFilterCard
        rw [if_pos hcont, hnorm]
        cases hbeq : (jsToUpper (c.currency.getD "") == "KRW") with
        | true => simpa using hbeq
        | false => simp [(by simpa using hbeq : ¬ jsToUpper (c.currency.getD "") = "KRW")]
      · rw [if_neg hB] at hc'
        dsimp only at hc'
        have he := showAll_card_at hrail hc hc'
        subst he
        refine ⟨fun hK' => absurd hK' hK, fun hB' => absurd hB' hB, fun _ _ => ?_⟩
        unfold showAllCard
        rw [if_pos hcont]

/-- Witness for C4: with a KRW from-card over the state `c4s`, the card
the filter produced at index 0 (the previously hidden BDT card) is
visible. -/
theorem claim4_witness :
    (Card.mk "intl-to" "rail-intl-to" (some "2") (some "BDT") false false false).dNone
      = false := by
  have h0 := claim4_intl_opposite_filter c4s (some c4from) (by decide) 0
    (Card.mk "intl-to" "rail-intl-to" (some "2") (some "BDT") false false true)
    (Card.mk "intl-to" "rail-intl-to" (some "2") (some "BDT") false false false)
    (by decide) (by decide) (by decide)
  exact (h0.1 (by decide)).mpr (by decide)

/-- C1 (amended): the rail click dispatch is a no-op on a card carrying
the `disabled` class — the state is returned unchanged, so no selection,
hidden field or callback effect occurs.  (The dispatch does not test the
hidden `d-none` class, and a direct `selectCard` call is unguarded; see
the counterexample.) -/
theorem claim1_click_dispatch_disabled_noop (s : DomState) (g : String) (i : Nat) (c : Card)
    (hc : s.cards[i]? = some c) (hdis : c.disabled = true) :
    railClick s g (some i) = s := by
  unfold railClick
  split
  · dsimp only
    rw [hc]
    dsimp only
    rw [if_pos hdis]
  · rfl

/-- C1 counterexample: in the state `c1s`, a direct `selectCard` call on
the disabled card (index 0) selects it and rewrites the hidden field, and
the rail click dispatch on the hidden card (index 1) selects it — neither
invocation is a no-op, contradicting the claim for direct calls on
disabled/hidden cards and for dispatch on hidden cards. -/
theorem claim1_counterexample :
    ((c1s.cards[0]?).map (fun c => (c.disabled, c.selected)) = some (true, false) ∧
      ((selectCard c1s 0 (optsFor "local-to")).cards[0]?).map (fun c => c.selected)
        = some true ∧
      getField c1s "local-to-id" = some "" ∧
      getField (selectCard c1s 0 (optsFor "local-to")) "local-to-id" = some "9") ∧
    ((c1s.cards[1]?).map (fun c => (c.dNone, c.disabled, c.selected))
        = some (true, false, false) ∧
      ((railClick c1s "local-to" (some 1)).cards[1]?).map (fun c => c.selected)
        = some true) := by
  decide

/-- Witness for C1: the dispatch applied to the disabled card of `c1s`
leaves the state unchanged. -/
theorem claim1_witness : railClick c1s "local-to" (some 0) = c1s :=
  claim1_click_dispatch_disabled_noop c1s "local-to" 0
    (Card.mk "local-to" "rail-local-to" (some "9") (some "KRW") false true false)
    (by decide) (by decide)

theorem condSet_eq_of_absent {α : Type} (l : List (String × α)) (k : String) (w : α)
    (h : lookupId l k = none) : condSet (fun x => x == k) w l = l := by
  induction l with
  | nil => rfl
  | cons a rest ih =>
    rw [lookupId_cons] at h
    by_cases hk : (a.1 == k) = true
    · rw [if_pos hk] at h
      simp at h
    · rw [if_neg hk] at h
      rw [condSet_cons]
      simp only [Bool.not_eq_true] at hk
      simp [hk, ih h]

theorem condSet_or_eq_of_absent {α : Type} (l : List (String × α)) (k1 k2 : String) (w : α)
    (h1 : lookupId l k1 = none) (h2 : lookupId l k2 = none) :
    condSet (fun x => x == k1 || x == k2) w l = l := by
  induction l with
  | nil => rfl
  | cons a rest ih =>
    rw [lookupId_cons] at h1 h2
    by_cases hk1 : (a.1 == k1) = true
    · rw [if_pos hk1] at h1
      simp at h1
    · by_cases hk2 : (a.1 == k2) = true
      · rw [if_pos hk2] at h2
        simp at h2
      · rw [if_neg hk1] at h1
        rw [if_neg hk2] at h2
        rw [condSet_cons]
        simp only [Bool.not_eq_true] at hk1 hk2
        simp [hk1, hk2, ih h1 h2]

theorem setField_of_absent (fs : List (String × String)) (fid v : String)
    (h : lookupId fs fid = none) : setField fs fid v = fs :=
  condSet_eq_of_absent fs fid v h

/-- C7 (amended): each operation is total and skips an absent element:
the two rail walkers are complete no-ops when the rail element is absent,
the two self-toggle handlers are complete no-ops when their checkbox is
absent, `selectCard`'s hidden-field writes leave the fields untouched
when the bound elements are absent, and `setRecipientDisabled` leaves the
wrappers (resp. the inputs) untouched when the wrapper (resp. both
inputs) is absent.  `applyLocalToDisables` is the exception the original
claim missed: with the `local-from-id` field absent it proceeds with the
empty string and still rewrites the disabled flags (see the
counterexample). -/
theorem claim7_absent_element_noops :
    (∀ (s : DomState) (r : String) (a : Option String), r ∉ s.railIds →
        filterRailByCurrency s r a = s) ∧
    (∀ (s : DomState) (r : String), r ∉ s.railIds → showAllCardsInRail s r = s) ∧
    (∀ (s : DomState), s.selfChk = none → onIntlSelfChange s = s) ∧
    (∀ (s : DomState), s.localSelfChk = none → onLocalSelfChange s = s) ∧
    (∀ (s : DomState) (i : Nat) (o : SelectOptions),
        (∀ hid, o.hiddenId = some hid → getField s hid = none) →
        (∀ hcu, o.hiddenCurrency = some hcu → getField s hcu = none) →
        (selectCard s i o).fields = s.fields) ∧
    (∀ (s : DomState) (sc : String) (d : Bool),
        getWrap s (sc ++ "recipient-wrap") = none →
        (setRecipientDisabled s sc d).wraps = s.wraps) ∧
    (∀ (s : DomState) (sc : String) (d : Bool),
        getInput s (sc ++ "recipient_id") = none →
        getInput s (sc ++ "recipient_name") = none →
        (setRecipientDisabled s sc d).inputs = s.inputs) ∧
    (∀ (s : DomState), getField s "local-from-id" = none →
        (applyLocalToDisables s).cards
          = (applyLocalToDisables { s with fields := ("local-from-id", "") :: s.fields }).cards) := by
  refine ⟨filterRail_not_mem, showAll_not_mem, ?_, ?_, ?_, ?_, ?_, ?_⟩
  · intro s h
    unfold onIntlSelfChange
    rw [h]
  · intro s h
    unfold onLocalSelfChange
    rw [h]
  · intro s i o h1 h2
    cases hget : s.cards[i]? with
    | none => rw [selectCard_of_none s i o hget]
    | some card =>
      rw [selectCard_of_get s i o card hget, selectCardResolved_fields]
      have hid : writeHiddenId o card s.fields = s.fields := by
        unfold writeHiddenId
        cases ho : o.hiddenId with
        | none => rfl
        | some hid =>
          dsimp only
          by_cases hhe : hid = ""
          · rw [if_pos hhe]
          · rw [if_neg hhe]
            exact setField_of_absent s.fields hid _ (h1 hid ho)
      rw [hid]
      unfold writeHiddenCurrency
      cases ho : o.hiddenCurrency with
      | none => rfl
      | some hcu =>
        dsimp only
        by_cases hhe : hcu = ""
        · rw [if_pos hhe]
        · rw [if_neg hhe]
          cases hcc : card.currency with
          | none => rfl
          | some cur =>
            dsimp only
            by_cases hce : cur = ""
            · rw [if_pos hce]
            · rw [if_neg hce]
              exact setField_of_absent s.fields hcu _ (h2 hcu ho)
  · intro s sc d h
    rw [setRecip_wraps]
    exact condSet_eq_of_absent s.wraps _ _ h
  · intro s sc d h1 h2
    rw [setRecip_inputs]
    exact condSet_or_eq_of_absent s.inputs _ _ _ h1 h2
  · intro s h
    rw [disables_cards, disables_cards, h]
    have hg : getField { s with fields := ("local-from-id", "") :: s.fields } "local-from-id"
        = some "" := by
      unfold getField
      rw [lookupId_cons]
      simp
    rw [hg]
    rfl

/-- C7 counterexample: with the `local-from-id` hidden field absent,
`applyLocalToDisables` is not a no-op — it re-enables the disabled
`local-to` card of `c7s`. -/
theorem claim7_counterexample :
    getField c7s "local-from-id" = none ∧ applyLocalToDisables c7s ≠ c7s := by decide

/-- Witness for C7: filtering a rail whose element is absent changes
nothing in the concrete state `c3s`. -/
theorem claim7_witness :
    ("rail-x" ∉ c3s.railIds) ∧ filterRailByCurrency c3s "rail-x" none = c3s :=
  ⟨by decide, claim7_absent_element_noops.1 c3s "rail-x" none (by decide)⟩

theorem disables_disabled_iff (t : DomState) (j : Nat) (d : Card)
    (hd : (applyLocalToDisables t).cards[j]? = some d) (hg : d.group = "local-to") :
    (d.disabled = true ↔ d.accountId = some ((getField t "local-from-id").getD "")) := by
  rw [disables_cards, List.getElem?_map] at hd
  cases he : t.cards[j]? with
  | none => rw [he] at hd; simp at hd
  | some e =>
    rw [he] at hd
    simp only [Option.map_some', Option.some.injEq] at hd
    cases hd
    have hge : e.group = "local-to" := by rw [← disableCard_group ((getField t "local-from-id").getD "") e]; exact hg
    unfold disableCard
    rw [if_pos hge]
    by_cases ha : e.accountId = some ((getField t "local-from-id").getD "")
    · rw [if_pos ha]
      simpa using ha
    · rw [if_neg ha]
      simpa using ha

theorem postLocalFilter_card (t : DomState) (fc : Option Card) (j : Nat) (d : Card)
    (hd : (applyLocalCurrencyFilter t fc).cards[j]? = some d) :
    ∃ e, t.cards[j]? = some e ∧ d.disabled = e.disabled ∧ d.accountId = e.accountId ∧
      d.group = e.group := by
  unfold applyLocalCurrencyFilter at hd
  dsimp only at hd
  split at hd
  · by_cases hmem : "rail-local-to" ∈ t.railIds
    · rw [showAll_cards_mem _ _ hmem, List.getElem?_map] at hd
      cases he : t.cards[j]? with
      | none => rw [he] at hd; simp at hd
      | some e =>
        rw [he] at hd
        simp only [Option.map_some', Option.some.injEq] at hd
        cases hd
        exact ⟨e, rfl, showAllCard_disabled _ e, showAllCard_accountId _ e, showAllCard_group _ e⟩
    · rw [showAll_not_mem _ _ hmem] at hd
      exact ⟨d, hd, rfl, rfl, rfl⟩
  · by_cases hmem : "rail-local-to" ∈ t.railIds
    · rw [filterRail_cards_mem _ _ _ hmem, List.getElem?_map] at hd
      cases he : t.cards[j]? with
      | none => rw [he] at hd; simp at hd
      | some e =>
        rw [he] at hd
        simp only [Option.map_some', Option.some.injEq] at hd
        cases hd
        exact ⟨e, rfl, applyFilterCard_disabled _ _ e, applyFilterCard_accountId _ _ e,
          applyFilterCard_group _ _ e⟩
    · rw [filterRail_not_mem _ _ _ hmem] at hd
      exact ⟨d, hd, rfl, rfl, rfl⟩

/-- C5: after a `local-from` selection completes (a `selectCard` call with
the local-from bindings, on a state where the `local-from-id` field
exists), a `local-to` card is disabled exactly when its account id equals
the value just written to the `local-from-id` field (the selected card's
account id); and the currency filter operations never change any card's
disabled flag in any state. -/
theorem claim5_local_to_disable_iff (s : DomState) (i : Nat) (c : Card)
    (hc : s.cards[i]? = some c) (hg : c.group = "local-from")
    (hf : ∃ v, getField s "local-from-id" = some v) :
    ((getField (selectCard s i (optsFor "local-from")) "local-from-id"
        = some (c.accountId.getD "")) ∧
     (∀ (j : Nat) (d : Card),
        (selectCard s i (optsFor "local-from")).cards[j]? = some d →
        d.group = "local-to" →
        (d.disabled = true ↔ d.accountId = some (c.accountId.getD "")))) ∧
    ((∀ (t : DomState) (r : String) (a : Option String) (j : Nat),
        ((filterRailByCurrency t r a).cards[j]?).map (fun d => d.disabled)
          = (t.cards[j]?).map (fun d => d.disabled)) ∧
     (∀ (t : DomState) (r : String) (j : Nat),
        ((showAllCardsInRail t r).cards[j]?).map (fun d => d.disabled)
          = (t.cards[j]?).map (fun d => d.disabled))) := by
  obtain ⟨v0, hv0⟩ := hf
  unfold getField at hv0
  have hopts : optsFor "local-from"
      = ⟨some "local-from-id", some "local-currency", SelectCb.localFromCb⟩ := by decide
  rw [selectCard_of_get s i _ c hc, hopts]
  have hwid : ∀ fs : List (String × String),
      writeHiddenId ⟨some "local-from-id", some "local-currency", SelectCb.localFromCb⟩ c fs
        = setField fs "local-from-id" (c.accountId.getD "") := by
    intro fs
    unfold writeHiddenId
    dsimp only
    rw [if_neg (by decide : ¬ ("local-from-id" : String) = "")]
  have hfields : lookupId
      (writeHiddenCurrency ⟨some "local-from-id", some "local-currency", SelectCb.localFromCb⟩ c
        (writeHiddenId ⟨some "local-from-id", some "local-currency", SelectCb.localFromCb⟩ c s.fields))
      "local-from-id" = some (c.accountId.getD "") := by
    unfold writeHiddenCurrency
    dsimp only
    rw [if_neg (by decide : ¬ ("local-currency" : String) = "")]
    cases hcc : c.currency with
    | none =>
      rw [hwid, lookupId_setField_self, hv0]
      rfl
    | some cur =>
      dsimp only
      by_cases hce : cur = ""
      · rw [if_pos hce, hwid, lookupId_setField_self, hv0]
        rfl
      · rw [if_neg hce, hwid,
          lookupId_setField_ne _ "local-currency" _ "local-from-id" (by decide),
          lookupId_setField_self, hv0]
        rfl
  constructor
  · constructor
    · unfold getField
      rw [selectCardResolved_fields]
      exact hfields
    · intro j d hd hgd
      unfold selectCardResolved runSelectCb at hd
      dsimp only at hd
      obtain ⟨e, he, hdis, hacc, hgrp⟩ := postLocalFilter_card _ (some c) j d hd
      have hge : e.group = "local-to" := by rw [← hgrp]; exact hgd
      have hiff := disables_disabled_iff _ j e he hge
      unfold getField at hiff
      dsimp only at hiff
      rw [hfields] at hiff
      simp only [Option.getD_some] at hiff
      rw [hdis, hacc]
      exact hiff
  · constructor
    · intro t r a j
      by_cases hmem : r ∈ t.railIds
      · rw [filterRail_cards_mem _ _ _ hmem, List.getElem?_map]
        cases t.cards[j]? <;> simp [applyFilterCard_disabled]
      · rw [filterRail_not_mem _ _ _ hmem]
    · intro t r j
      by_cases hmem : r ∈ t.railIds
      · rw [showAll_cards_mem _ _ hmem, List.getElem?_map]
        cases t.cards[j]? <;> simp [showAllCard_disabled]
      · rw [showAll_not_mem _ _ hmem]

/-- Witness for C5: after selecting the local-from card with account id 1
in `c5s`, the local-to card carrying the same id is disabled. -/
theorem claim5_witness :
    (Card.mk "local-to" "rail-local-to" (some "1") (some "KRW") false true false).disabled
      = true := by
  have h := claim5_local_to_disable_iff c5s 0
    (Card.mk "local-from" "rail-local-from" (some "1") (some "KRW") false false false)
    (by decide) (by decide) ⟨"", by decide⟩
  exact (h.1.2 1
    (Card.mk "local-to" "rail-local-to" (some "1") (some "KRW") false true false)
    (by decide) (by decide)).mpr (by decide)

theorem showAllCard_of_ne (r : String) (c : Card) (h : ¬ c.container = r) :
    showAllCard r c = c := by
  unfold showAllCard; rw [if_neg h]

theorem disables_card_at (t : DomState) (j : Nat) (e : Card) (he : t.cards[j]? = some e) :
    (applyLocalToDisables t).cards[j]?
      = some (disableCard ((getField t "local-from-id").getD "") e) := by
  rw [disables_cards, List.getElem?_map, he]
  rfl

theorem localFilter_card_unchanged (t : DomState) (fc : Option Card) (j : Nat) (e : Card)
    (he : t.cards[j]? = some e) (hne : ¬ e.container = "rail-local-to") :
    (applyLocalCurrencyFilter t fc).cards[j]? = some e := by
  unfold applyLocalCurrencyFilter
  dsimp only
  split
  · by_cases hmem : "rail-local-to" ∈ t.railIds
    · rw [showAll_cards_mem _ _ hmem, List.getElem?_map, he, Option.map_some',
        showAllCard_of_ne _ _ hne]
    · rw [showAll_not_mem _ _ hmem]
      exact he
  · by_cases hmem : "rail-local-to" ∈ t.railIds
    · rw [filterRail_cards_mem _ _ _ hmem, List.getElem?_map, he, Option.map_some',
        applyFilterCard_of_ne _ _ _ hne]
    · rw [filterRail_not_mem _ _ _ hmem]
      exact he

theorem intlFilter_card_unchanged (t : DomState) (fc : Option Card) (j : Nat) (e : Card)
    (he : t.cards[j]? = some e) (hne : ¬ e.container = "rail-intl-to") :
    (applyIntlToCurrencyFilter t fc).cards[j]? = some e := by
  unfold applyIntlToCurrencyFilter
  dsimp only
  split
  · by_cases hmem : "rail-intl-to" ∈ t.railIds
    · rw [showAll_cards_mem _ _ hmem, List.getElem?_map, he, Option.map_some',
        showAllCard_of_ne _ _ hne]
    · rw [showAll_not_mem _ _ hmem]
      exact he
  · split
    · by_cases hmem : "rail-intl-to" ∈ t.railIds
      · rw [filterRail_cards_mem _ _ _ hmem, List.getElem?_map, he, Option.map_some',
          applyFilterCard_of_ne _ _ _ hne]
      · rw [filterRail_not_mem _ _ _ hmem]
        exact he
    · by_cases hmem : "rail-intl-to" ∈ t.railIds
      · rw [showAll_cards_mem _ _ hmem, List.getElem?_map, he, Option.map_some',
          showAllCard_of_ne _ _ hne]
      · rw [showAll_not_mem _ _ hmem]
        exact he

theorem optsFor_cb_cases (g : String) :
    (optsFor g).cb = SelectCb.noCb ∨
    ((optsFor g).cb = SelectCb.localFromCb ∧ g = "local-from") ∨
    ((optsFor g).cb = SelectCb.intlFromCb ∧ g = "intl-from") := by
  unfold optsFor
  by_cases h1 : g = "local-from"
  · rw [if_pos h1]
    exact Or.inr (Or.inl ⟨rfl, h1⟩)
  · rw [if_neg h1]
    by_cases h2 : g = "local-to"
    · rw [if_pos h2]
      exact Or.inl rfl
    · rw [if_neg h2]
      by_cases h3 : g = "intl-from"
      · rw [if_pos h3]
        exact Or.inr (Or.inr ⟨rfl, h3⟩)
      · rw [if_neg h3]
        by_cases h4 : g = "intl-to"
        · rw [if_pos h4]
          exact Or.inl rfl
        · rw [if_neg h4]
          exact Or.inl rfl

theorem phase1_at {s : DomState} {i : Nat} {c : Card} (hc : s.cards[i]? = some c) (j : Nat) :
    ((s.cards.map (clearGroupCard c.group)).set i { c with selected := true })[j]?
      = if i = j then some { c with selected := true }
        else (s.cards[j]?).map (clearGroupCard c.group) := by
  rw [List.getElem?_set]
  have hlen : i < s.cards.length := (List.getElem?_eq_some.mp hc).1
  by_cases hji : i = j
  · rw [if_pos hji, if_pos hji]
    rw [if_pos (by rw [List.length_map]; omega)]
  · rw [if_neg hji, if_neg hji, List.getElem?_map]

theorem selectCardResolved_track (s : DomState) (i : Nat) (c : Card) (o : SelectOptions)
    (j : Nat) (d : Card) (hd : (selectCardResolved s i c o).cards[j]? = some d) :
    ∃ e, ((s.cards.map (clearGroupCard c.group)).set i { c with selected := true })[j]?
        = some e ∧ d.group = e.group ∧ (d.selected = true → e.selected = true) := by
  unfold selectCardResolved at hd
  have htr := selTrackS_runCb o.cb c
    { s with
      cards := (s.cards.map (clearGroupCard c.group)).set i { c with selected := true }
      fields := writeHiddenCurrency o c (writeHiddenId o c s.fields) }
  unfold SelTrackS SelTrack at htr
  exact htr j d hd

theorem selectCardResolved_at_i (s : DomState) (i : Nat) (c : Card) (o : SelectOptions)
    (hc : s.cards[i]? = some c)
    (h1 : o.cb = SelectCb.localFromCb → ¬ c.container = "rail-local-to")
    (h2 : o.cb = SelectCb.intlFromCb → ¬ c.container = "rail-intl-to") :
    ∃ d, (selectCardResolved s i c o).cards[i]? = some d ∧ d.selected = true ∧
      d.group = c.group := by
  unfold selectCardResolved
  have hT : ({ s with
      cards := (s.cards.map (clearGroupCard c.group)).set i { c with selected := true }
      fields := writeHiddenCurrency o c (writeHiddenId o c s.fields) } : DomState).cards[i]?
      = some { c with selected := true } := by
    dsimp only
    rw [phase1_at hc i, if_pos rfl]
  cases hcb : o.cb with
  | noCb =>
    unfold runSelectCb
    dsimp only
    exact ⟨_, hT, rfl, rfl⟩
  | localFromCb =>
    have hd1 := disables_card_at _ i _ hT
    unfold runSelectCb
    dsimp only
    refine ⟨_, localFilter_card_unchanged _ (some c) i _ hd1 ?_, ?_, ?_⟩
    · rw [disableCard_container]
      exact h1 hcb
    · rw [disableCard_selected]
    · rw [disableCard_group]
  | intlFromCb =>
    unfold runSelectCb
    dsimp only
    exact ⟨_, intlFilter_card_unchanged _ (some c) i _ hT (h2 hcb), rfl, rfl⟩

/-- C2 (amended): under a consistent DOM with at most one selected card
per rail, a `selectCard` call with the card's wired options leaves
exactly the clicked card selected in its own rail group; in every other
rail group no card gains selection (a selection can only be lost, to the
follow-on currency filter hiding it — see the counterexample for why
"unchanged" is too strong); and every operation of the component
preserves the at-most-one-selected-per-rail invariant. -/
theorem claim2_selection_per_rail (s : DomState) (i : Nat) (c : Card)
    (hWF : railsConsistent s) (hInv : atMostOne s) (hc : s.cards[i]? = some c) :
    ((∀ (j : Nat) (d : Card),
        (selectCard s i (optsFor c.group)).cards[j]? = some d → d.group = c.group →
        (d.selected = true ↔ j = i)) ∧
     (∀ (j : Nat) (d d' : Card), s.cards[j]? = some d →
        (selectCard s i (optsFor c.group)).cards[j]? = some d' → ¬ d.group = c.group →
        d'.selected = true → d.selected = true)) ∧
    ((∀ (i' : Nat) (o : SelectOptions), atMostOne (selectCard s i' o)) ∧
     (∀ (r : String) (a : Option String), atMostOne (filterRailByCurrency s r a)) ∧
     (∀ (r : String), atMostOne (showAllCardsInRail s r)) ∧
     atMostOne (applyLocalToDisables s) ∧
     atMostOne (onIntlSelfChange s) ∧
     atMostOne (onLocalSelfChange s) ∧
     (∀ (g : String) (t : Option Nat), atMostOne (railClick s g t))) := by
  have hmemc : c ∈ s.cards := by
    obtain ⟨hlt, heq⟩ := List.getElem?_eq_some.mp hc
    exact heq ▸ List.getElem_mem hlt
  have hcont : c.container = "rail-" ++ c.group := (hWF c hmemc).1
  constructor
  · constructor
    · intro j d hd hgd
      rw [selectCard_of_get s i _ c hc] at hd
      by_cases hji : j = i
      · subst hji
        obtain ⟨d0, hd0, hsel0, _⟩ := selectCardResolved_at_i s j c (optsFor c.group) hc
          (fun hcb => by
            rcases optsFor_cb_cases c.group with h | ⟨_, hgrp⟩ | ⟨hcb', _⟩
            · rw [h] at hcb; exact SelectCb.noConfusion hcb
            · rw [hcont, hgrp]; decide
            · rw [hcb'] at hcb; exact SelectCb.noConfusion hcb)
          (fun hcb => by
            rcases optsFor_cb_cases c.group with h | ⟨hcb', _⟩ | ⟨_, hgrp⟩
            · rw [h] at hcb; exact SelectCb.noConfusion hcb
            · rw [hcb'] at hcb; exact SelectCb.noConfusion hcb
            · rw [hcont, hgrp]; decide)
        rw [hd0] at hd
        cases hd
        simp [hsel0]
      · obtain ⟨e, he, hgeq, hsel⟩ := selectCardResolved_track s i c (optsFor c.group) j d hd
        rw [phase1_at hc j, if_neg (fun h => hji h.symm)] at he
        cases hsj : s.cards[j]? with
        | none => rw [hsj] at he; simp at he
        | some f =>
          rw [hsj] at he
          simp only [Option.map_some', Option.some.injEq] at he
          have hfg : f.group = c.group := by
            rw [← he] at hgeq
            rw [clearGroupCard_group] at hgeq
            rw [← hgeq]
            exact hgd
          have hesel : e.selected = false := by
            rw [← he, clearGroupCard_of_eq _ _ hfg]
          constructor
          · intro hds
            have := hsel hds
            rw [hesel] at this
            exact absurd this (by simp)
          · intro h
            exact absurd h hji
    · intro j d d' hdj hd hgne hdsel
      rw [selectCard_of_get s i _ c hc] at hd
      obtain ⟨e, he, hgeq, hsel⟩ := selectCardResolved_track s i c (optsFor c.group) j d' hd
      rw [phase1_at hc j] at he
      by_cases hji : i = j
      · rw [← hji, hc] at hdj
        have : c = d := Option.some.inj hdj
        exact absurd (by rw [← this]) hgne
      · rw [if_neg hji] at he
        rw [hdj] at he
        simp only [Option.map_some', Option.some.injEq] at he
        have := hsel hdsel
        rw [← he] at this
        exact clearGroupCard_sel _ _ this
  · refine ⟨fun i' o => atMostOne_selectCard s i' o hInv,
      fun r a => atMostOne_filterRail s r a hInv,
      fun r => atMostOne_showAll s r hInv,
      atMostOne_disables s hInv,
      atMostOne_onIntlSelfChange s hInv,
      atMostOne_onLocalSelfChange s hInv,
      fun g t => atMostOne_railClick s g t hInv⟩

/-- C2 counterexample: selecting the KRW intl-from card of `c2s` (a state
with at most one selected card per rail) deselects the selected KRW card
in the other (intl-to) rail group via the follow-on opposite-currency
filter, so the selection state of other rail groups is not left
unchanged. -/
theorem claim2_counterexample :
    atMostOne c2s ∧ railsConsistent c2s ∧
    (c2s.cards[1]?).map (fun d => (d.group, d.selected)) = some ("intl-to", true) ∧
    ((selectCard c2s 0 (optsFor "intl-from")).cards[1]?).map (fun d => (d.group, d.selected))
      = some ("intl-to", false) := by decide

/-- Witness for C2: in `c2s` the clicked intl-from card itself ends up
selected. -/
theorem claim2_witness :
    (Card.mk "intl-from" "rail-intl-from" (some "1") (some "KRW") true false false).selected
      = true := by
  have h := claim2_selection_per_rail c2s 0
    (Card.mk "intl-from" "rail-intl-from" (some "1") (some "KRW") false false false)
    (by decide) (by decide) (by decide)
  exact (h.1.1 0
    (Card.mk "intl-from" "rail-intl-from" (some "1") (some "KRW") true false false)
    (by decide) (by decide)).mpr rfl

theorem selectCard_dNone_at (t : DomState) (i' : Nat) (o : SelectOptions)
    (ho : o.cb = SelectCb.noCb) (j : Nat) :
    ((selectCard t i' o).cards[j]?).map (fun c => (c.dNone, c.container))
      = (t.cards[j]?).map (fun c => (c.dNone, c.container)) := by
  cases hget : t.cards[i']? with
  | none => rw [selectCard_of_none _ _ _ hget]
  | some card =>
    rw [selectCard_of_get _ _ _ _ hget]
    unfold selectCardResolved runSelectCb
    rw [ho]
    dsimp only
    rw [phase1_at hget j]
    by_cases hji : i' = j
    · rw [if_pos hji, ← hji, hget]
      rfl
    · rw [if_neg hji]
      cases t.cards[j]? <;> simp [clearGroupCard_dNone, clearGroupCard_container]

theorem selectCard_selected_at_i (t : DomState) (i' : Nat) (o : SelectOptions) (card : Card)
    (hget : t.cards[i']? = some card) (ho : o.cb = SelectCb.noCb) :
    ((selectCard t i' o).cards[i']?).map (fun c => c.selected) = some true := by
  rw [selectCard_of_get _ _ _ _ hget]
  unfold selectCardResolved runSelectCb
  rw [ho]
  dsimp only
  rw [phase1_at hget i', if_pos rfl]
  rfl

theorem eligCardIn_filter_BDT (c : Card) :
    eligCardIn "rail-intl-to" (applyFilterCard "rail-intl-to" (normAllow (some "BDT")) c)
      = eligBDT c := by
  have hn : normAllow (some "BDT") = some "BDT" := by decide
  rw [hn]
  unfold eligCardIn eligBDT applyFilterCard
  by_cases hc : c.container = "rail-intl-to"
  · rw [if_pos hc]
    dsimp only
    cases h1 : (jsToUpper (c.currency.getD "") == "BDT") <;>
      cases h2 : c.disabled <;> simp [h1, h2, hc]
  · rw [if_neg hc]
    have hb : (c.container == "rail-intl-to") = false := by simp [hc]
    rw [hb]
    simp

theorem selectCard_inputs (t : DomState) (i : Nat) (o : SelectOptions) :
    (selectCard t i o).inputs = t.inputs := by
  cases hget : t.cards[i]? with
  | none => rw [selectCard_of_none _ _ _ hget]
  | some card => rw [selectCard_of_get _ _ _ _ hget, selectCardResolved_inputs]

/-- C6: the international self-toggle handler.  Checked: the intl
recipient inputs are disabled, a card of the intl-to rail is visible
exactly when its currency is BDT, and when the rail holds a first
enabled BDT card it becomes selected and (when the `intl-to-id` field
exists) its account id is written there.  Unchecked: the recipient
inputs are re-enabled, the `intl-to-id` field (when present) is set to
the empty string, and every card of the intl-to rail loses its
selected state. -/
theorem claim6_intl_self_toggle (s : DomState) (checked : Bool)
    (hchk : s.selfChk = some checked) (hrail : "rail-intl-to" ∈ s.railIds) :
    (checked = true →
      ((∀ r, getInput (onIntlSelfChange s) "recipient_id" = some r → r.disabledProp = true) ∧
       (∀ r, getInput (onIntlSelfChange s) "recipient_name" = some r → r.disabledProp = true) ∧
       (∀ (j : Nat) (c c' : Card), s.cards[j]? = some c →
          (onIntlSelfChange s).cards[j]? = some c' → c.container = "rail-intl-to" →
          (c'.dNone = false ↔ jsToUpper (c.currency.getD "") = "BDT")) ∧
       (∀ i, firstIdxWhere eligBDT s.cards = some i →
          ((onIntlSelfChange s).cards[i]?).map (fun c => c.selected) = some true ∧
          (∀ v, getField s "intl-to-id" = some v →
            getField (onIntlSelfChange s) "intl-to-id"
              = some (((s.cards[i]?).bind (fun c => c.accountId)).getD ""))))) ∧
    (checked = false →
      ((∀ r, getInput (onIntlSelfChange s) "recipient_id" = some r → r.disabledProp = false) ∧
       (∀ r, getInput (onIntlSelfChange s) "recipient_name" = some r → r.disabledProp = false) ∧
       (∀ v, getField s "intl-to-id" = some v →
          getField (onIntlSelfChange s) "intl-to-id" = some "") ∧
       (∀ (j : Nat) (c' : Card), (onIntlSelfChange s).cards[j]? = some c' →
          c'.container = "rail-intl-to" → c'.selected = false))) := by
  constructor
  · intro hct
    rw [hct] at hchk
    unfold onIntlSelfChange
    rw [hchk]
    dsimp only
    rw [if_pos rfl]
    have hX : findFirstEligible
        (filterRailByCurrency
          (setRecipientDisabled { s with selfChk := some true, selfWrapDNone := s.selfWrapDNone.map (fun _ => false) }
            "" true) "rail-intl-to" (some "BDT")) "rail-intl-to"
        = firstIdxWhere eligBDT s.cards := by
      unfold findFirstEligible
      rw [filterRail_railIds, setRecip_railIds]
      rw [if_pos hrail]
      rw [filterRail_cards_mem _ _ _ (by rw [setRecip_railIds]; exact hrail), setRecip_cards]
      dsimp only
      rw [firstIdxWhere_map]
      exact firstIdxWhere_ext _ _ (fun j => by
        cases s.cards[j]? <;> simp [eligCardIn_filter_BDT])
    rw [hX]
    have hs2r : ("rail-intl-to" : String) ∈ (setRecipientDisabled
        { s with selfChk := some true, selfWrapDNone := s.selfWrapDNone.map (fun _ => false) } "" true).railIds := by
      rw [setRecip_railIds]
      exact hrail
    have hs3cards : (filterRailByCurrency
        (setRecipientDisabled { s with selfChk := some true, selfWrapDNone := s.selfWrapDNone.map (fun _ => false) }
          "" true) "rail-intl-to" (some "BDT")).cards
        = s.cards.map (applyFilterCard "rail-intl-to" (normAllow (some "BDT"))) := by
      rw [filterRail_cards_mem _ _ _ hs2r, setRecip_cards]
    have hs3fields : (filterRailByCurrency
        (setRecipientDisabled { s with selfChk := some true, selfWrapDNone := s.selfWrapDNone.map (fun _ => false) }
          "" true) "rail-intl-to" (some "BDT")).fields = s.fields := by
      rw [filterRail_fields, setRecip_fields]
    have hs3inputs : (filterRailByCurrency
        (setRecipientDisabled { s with selfChk := some true, selfWrapDNone := s.selfWrapDNone.map (fun _ => false) }
          "" true) "rail-intl-to" (some "BDT")).inputs
        = condSet (fun k => k == "" ++ "recipient_id" || k == "" ++ "recipient_name")
            (InputState.mk true true) s.inputs := by
      rw [filterRail_inputs, setRecip_inputs]
    cases hfi : firstIdxWhere eligBDT s.cards with
    | none =>
      dsimp only
      refine ⟨?_, ?_, ?_, ?_⟩
      · intro r hr
        unfold getInput at hr
        rw [hs3inputs] at hr
        rw [lookupId_condSet_pos _ _ _ _ (by decide)] at hr
        cases hl : lookupId s.inputs "recipient_id" with
        | none => rw [hl] at hr; simp at hr
        | some q => rw [hl] at hr; simp only [Option.map_some', Option.some.injEq] at hr; rw [← hr]
      · intro r hr
        unfold getInput at hr
        rw [hs3inputs] at hr
        rw [lookupId_condSet_pos _ _ _ _ (by decide)] at hr
        cases hl : lookupId s.inputs "recipient_name" with
        | none => rw [hl] at hr; simp at hr
        | some q => rw [hl] at hr; simp only [Option.map_some', Option.some.injEq] at hr; rw [← hr]
      · intro j c c' hc hc' hcont
        rw [hs3cards, List.getElem?_map, hc] at hc'
        simp only [Option.map_some', Option.some.injEq] at hc'
        cases hc'
        unfold applyFilterCard
        rw [if_pos hcont, (by decide : normAllow (some "BDT") = some "BDT")]
        cases h1 : (jsToUpper (c.currency.getD "") == "BDT") with
        | true =>
          have h2 : jsToUpper (c.currency.getD "") = "BDT" := by simpa using h1
          simp [h2]
        | false =>
          have h2 : ¬ jsToUpper (c.currency.getD "") = "BDT" := by simpa using h1
          simp [h2]
      · intro i hi
        exact absurd hi (by simp)
    | some i =>
      dsimp only
      obtain ⟨c0, hc0, helig, _⟩ := firstIdxWhere_some_spec hfi
      have hget3 : (filterRailByCurrency
          (setRecipientDisabled { s with selfChk := some true, selfWrapDNone := s.selfWrapDNone.map (fun _ => false) }
            "" true) "rail-intl-to" (some "BDT")).cards[i]?
          = some (applyFilterCard "rail-intl-to" (normAllow (some "BDT")) c0) := by
        rw [hs3cards, List.getElem?_map, hc0]
        rfl
      have hopts6 : optsFor "intl-to" = ⟨some "intl-to-id", none, SelectCb.noCb⟩ := by decide
      refine ⟨?_, ?_, ?_, ?_⟩
      · intro r hr
        unfold getInput at hr
        rw [selectCard_inputs, hs3inputs] at hr
        rw [lookupId_condSet_pos _ _ _ _ (by decide)] at hr
        cases hl : lookupId s.inputs "recipient_id" with
        | none => rw [hl] at hr; simp at hr
        | some q => rw [hl] at hr; simp only [Option.map_some', Option.some.injEq] at hr; rw [← hr]
      · intro r hr
        unfold getInput at hr
        rw [selectCard_inputs, hs3inputs] at hr
        rw [lookupId_condSet_pos _ _ _ _ (by decide)] at hr
        cases hl : lookupId s.inputs "recipient_name" with
        | none => rw [hl] at hr; simp at hr
        | some q => rw [hl] at hr; simp only [Option.map_some', Option.some.injEq] at hr; rw [← hr]
      · intro j c c' hc hc' hcont
        have hmap := selectCard_dNone_at
          (filterRailByCurrency
            (setRecipientDisabled
              { s with selfChk := some true, selfWrapDNone := s.selfWrapDNone.map (fun _ => false) } "" true)
            "rail-intl-to" (some "BDT"))
          i (optsFor "intl-to") (by rw [hopts6]) j
        rw [hc'] at hmap
        rw [hs3cards, List.getElem?_map, hc] at hmap
        simp only [Option.map_some', Option.some.injEq, Prod.mk.injEq] at hmap
        obtain ⟨hdn, _⟩ := hmap
        rw [hdn]
        unfold applyFilterCard
        rw [if_pos hcont, (by decide : normAllow (some "BDT") = some "BDT")]
        cases h1 : (jsToUpper (c.currency.getD "") == "BDT") with
        | true =>
          have h2 : jsToUpper (c.currency.getD "") = "BDT" := by simpa using h1
          simp [h2]
        | false =>
          have h2 : ¬ jsToUpper (c.currency.getD "") = "BDT" := by simpa using h1
          simp [h2]
      · intro i' hi'
        cases hi'
        constructor
        · exact selectCard_selected_at_i _ i _ _ hget3 (by rw [hopts6])
        · intro v hv
          unfold getField at hv ⊢
          rw [selectCard_of_get _ _ _ _ hget3, selectCardResolved_fields, hopts6]
          unfold writeHiddenCurrency writeHiddenId
          dsimp only
          rw [if_neg (by decide : ¬ ("intl-to-id" : String) = "")]
          rw [hs3fields, lookupId_setField_self, hv]
          rw [hc0]
          simp [applyFilterCard_accountId]
  · intro hcf
    rw [hcf] at hchk
    unfold onIntlSelfChange
    rw [hchk]
    dsimp only
    rw [if_neg (by simp)]
    split
    · refine ⟨?_, ?_, ?_, ?_⟩
      · intro r hr
        unfold getInput at hr
        dsimp only at hr
        rw [setRecip_inputs] at hr
        dsimp only at hr
        rw [lookupId_condSet_pos _ _ _ _ (by decide)] at hr
        cases hl : lookupId s.inputs "recipient_id" with
        | none => rw [hl] at hr; simp at hr
        | some q => rw [hl] at hr; simp only [Option.map_some', Option.some.injEq] at hr; rw [← hr]
      · intro r hr
        unfold getInput at hr
        dsimp only at hr
        rw [setRecip_inputs] at hr
        dsimp only at hr
        rw [lookupId_condSet_pos _ _ _ _ (by decide)] at hr
        cases hl : lookupId s.inputs "recipient_name" with
        | none => rw [hl] at hr; simp at hr
        | some q => rw [hl] at hr; simp only [Option.map_some', Option.some.injEq] at hr; rw [← hr]
      · intro v hv
        unfold getField at hv ⊢
        dsimp only
        rw [lookupId_setField_self]
        rw [setRecip_fields]
        dsimp only
        rw [hv]
        rfl
      · intro j c' hc' hcont
        dsimp only at hc'
        rw [List.getElem?_map] at hc'
        rw [setRecip_cards] at hc'
        dsimp only at hc'
        cases hcj : s.cards[j]? with
        | none => rw [hcj] at hc'; simp at hc'
        | some c =>
          rw [hcj] at hc'
          simp only [Option.map_some', Option.some.injEq] at hc'
          by_cases hcc : c.container = "rail-intl-to"
          · rw [if_pos hcc] at hc'
            rw [← hc']
          · rw [if_neg hcc] at hc'
            rw [← hc'] at hcont
            exact absurd hcont hcc
    · rename_i hmem
      exact absurd hrail (by
        intro hm
        apply hmem
        rw [setRecip_railIds]
        exact hm)

/-- Witness for C6: checking the self checkbox over `c6s` selects the
first enabled BDT card of the intl-to rail and writes its id into the
`intl-to-id` field. -/
theorem claim6_witness :
    ((onIntlSelfChange c6s).cards[0]?).map (fun c => c.selected) = some true ∧
    getField (onIntlSelfChange c6s) "intl-to-id"
      = some (((c6s.cards[0]?).bind (fun c => c.accountId)).getD "") := by
  have h := (claim6_intl_self_toggle c6s true (by decide) (by decide)).1 rfl
  obtain ⟨hsel, hfld⟩ := h.2.2.2 0 (by decide)
  exact ⟨hsel, hfld "" (by decide)⟩

theorem jsToUpper_ne_empty {x : String} (h : ¬ x = "") : ¬ jsToUpper x = "" := by
  intro he
  apply h
  apply String.ext
  have hd := congrArg String.data he
  unfold jsToUpper at hd
  simp only at hd
  have : x.data.map Char.toUpper = [] := hd
  have hx : x.data = [] := List.map_eq_nil.mp this
  simp [hx]

theorem filterRail_visible_iff (t : DomState) (r : String) (al : String) (hal : ¬ al = "")
    (hmem : r ∈ t.railIds) (j : Nat) (c c' : Card) (hc : t.cards[j]? = some c)
    (hc' : (filterRailByCurrency t r (some al)).cards[j]? = some c') (hcont : c.container = r) :
    (c'.dNone = false ↔ jsToUpper (c.currency.getD "") = jsToUpper al) := by
  have he := filterRail_card_at hmem hc hc'
  subst he
  unfold applyFilterCard
  rw [if_pos hcont]
  simp only [normAllow, if_neg hal]
  cases hbeq : (jsToUpper (c.currency.getD "") == jsToUpper al) with
  | true =>
    have h2 : jsToUpper (c.currency.getD "") = jsToUpper al := by simpa using hbeq
    simp [h2]
  | false =>
    have h2 : ¬ jsToUpper (c.currency.getD "") = jsToUpper al := by simpa using hbeq
    simp [h2]

theorem selectCard_railIds (t : DomState) (i : Nat) (o : SelectOptions) :
    (selectCard t i o).railIds = t.railIds := by
  cases hget : t.cards[i]? with
  | none => rw [selectCard_of_none _ _ _ hget]
  | some card => rw [selectCard_of_get _ _ _ _ hget, selectCardResolved_railIds]

/-- The four per-card data attributes no operation of the component ever
changes. -/
def cardAttrs (c : Card) : String × String × Option String × Option String :=
  (c.group, c.container, c.accountId, c.currency)

theorem cardAttrs_applyFilterCard (r : String) (a : Option String) (c : Card) :
    cardAttrs (applyFilterCard r a c) = cardAttrs c := by
  unfold cardAttrs
  rw [applyFilterCard_group, applyFilterCard_container, applyFilterCard_accountId,
    applyFilterCard_currency]

theorem cardAttrs_showAllCard (r : String) (c : Card) :
    cardAttrs (showAllCard r c) = cardAttrs c := by
  unfold cardAttrs
  rw [showAllCard_group, showAllCard_container, showAllCard_accountId, showAllCard_currency]

theorem cardAttrs_disableCard (v : String) (c : Card) :
    cardAttrs (disableCard v c) = cardAttrs c := by
  unfold cardAttrs
  rw [disableCard_group, disableCard_container, disableCard_accountId, disableCard_currency]

theorem cardAttrs_clearGroupCard (g : String) (c : Card) :
    cardAttrs (clearGroupCard g c) = cardAttrs c := by
  unfold cardAttrs
  rw [clearGroupCard_group, clearGroupCard_container, clearGroupCard_accountId,
    clearGroupCard_currency]

theorem localFilter_attrs_at (t : DomState) (fc : Option Card) (j : Nat) :
    ((applyLocalCurrencyFilter t fc).cards[j]?).map cardAttrs
      = (t.cards[j]?).map cardAttrs := by
  unfold applyLocalCurrencyFilter
  dsimp only
  split
  · by_cases hmem : "rail-local-to" ∈ t.railIds
    · rw [showAll_cards_mem _ _ hmem, List.getElem?_map]
      cases t.cards[j]? <;> simp [cardAttrs_showAllCard]
    · rw [showAll_not_mem _ _ hmem]
  · by_cases hmem : "rail-local-to" ∈ t.railIds
    · rw [filterRail_cards_mem _ _ _ hmem, List.getElem?_map]
      cases t.cards[j]? <;> simp [cardAttrs_applyFilterCard]
    · rw [filterRail_not_mem _ _ _ hmem]

theorem intlFilter_attrs_at (t : DomState) (fc : Option Card) (j : Nat) :
    ((applyIntlToCurrencyFilter t fc).cards[j]?).map cardAttrs
      = (t.cards[j]?).map cardAttrs := by
  unfold applyIntlToCurrencyFilter
  dsimp only
  split
  · by_cases hmem : "rail-intl-to" ∈ t.railIds
    · rw [showAll_cards_mem _ _ hmem, List.getElem?_map]
      cases t.cards[j]? <;> simp [cardAttrs_showAllCard]
    · rw [showAll_not_mem _ _ hmem]
  · split
    · by_cases hmem : "rail-intl-to" ∈ t.railIds
      · rw [filterRail_cards_mem _ _ _ hmem, List.getElem?_map]
        cases t.cards[j]? <;> simp [cardAttrs_applyFilterCard]
      · rw [filterRail_not_mem _ _ _ hmem]
    · by_cases hmem : "rail-intl-to" ∈ t.railIds
      · rw [showAll_cards_mem _ _ hmem, List.getElem?_map]
        cases t.cards[j]? <;> simp [cardAttrs_showAllCard]
      · rw [showAll_not_mem _ _ hmem]

theorem disables_attrs_at (t : DomState) (j : Nat) :
    ((applyLocalToDisables t).cards[j]?).map cardAttrs = (t.cards[j]?).map cardAttrs := by
  rw [disables_cards, List.getElem?_map]
  cases t.cards[j]? <;> simp [cardAttrs_disableCard]

theorem runCb_attrs_at (cb : SelectCb) (card : Card) (t : DomState) (j : Nat) :
    ((runSelectCb cb card t).cards[j]?).map cardAttrs = (t.cards[j]?).map cardAttrs := by
  cases cb with
  | noCb => rfl
  | localFromCb =>
    unfold runSelectCb
    rw [localFilter_attrs_at, disables_attrs_at]
  | intlFromCb =>
    unfold runSelectCb
    rw [intlFilter_attrs_at]

theorem selectCard_attrs_at (t : DomState) (i : Nat) (o : SelectOptions) (j : Nat) :
    ((selectCard t i o).cards[j]?).map cardAttrs = (t.cards[j]?).map cardAttrs := by
  cases hget : t.cards[i]? with
  | none => rw [selectCard_of_none _ _ _ hget]
  | some card =>
    rw [selectCard_of_get _ _ _ _ hget]
    unfold selectCardResolved
    rw [runCb_attrs_at]
    dsimp only
    rw [phase1_at hget j]
    by_cases hji : i = j
    · rw [if_pos hji, ← hji, hget]
      rfl
    · rw [if_neg hji]
      cases t.cards[j]? <;> simp [cardAttrs_clearGroupCard]

theorem selectCard_localFrom_unchanged (t : DomState) (i1 : Nat) (c1 : Card)
    (hget : t.cards[i1]? = some c1) (j : Nat) (e : Card) (he : t.cards[j]? = some e)
    (hgne : ¬ e.group = c1.group) (hgl : ¬ e.group = "local-to")
    (hcont : ¬ e.container = "rail-local-to") :
    (selectCard t i1 (optsFor "local-from")).cards[j]? = some e := by
  rw [selectCard_of_get _ _ _ _ hget]
  unfold selectCardResolved runSelectCb
  have hcb : (optsFor "local-from").cb = SelectCb.localFromCb := by decide
  rw [hcb]
  dsimp only
  have hji : ¬ i1 = j := by
    intro h
    rw [h, he] at hget
    exact hgne (by rw [Option.some.inj hget])
  have hphase : ((t.cards.map (clearGroupCard c1.group)).set i1
      { c1 with selected := true })[j]? = some e := by
    rw [phase1_at hget j, if_neg hji, he, Option.map_some', clearGroupCard_of_ne _ _ hgne]
  refine localFilter_card_unchanged _ (some c1) j e ?_ hcont
  rw [disables_card_at _ j e hphase, disableCard_of_ne _ _ hgl]

theorem selectCard_intlFrom_unchanged (t : DomState) (i2 : Nat) (c2 : Card)
    (hget : t.cards[i2]? = some c2) (j : Nat) (e : Card) (he : t.cards[j]? = some e)
    (hgne : ¬ e.group = c2.group) (hcont : ¬ e.container = "rail-intl-to") :
    (selectCard t i2 (optsFor "intl-from")).cards[j]? = some e := by
  rw [selectCard_of_get _ _ _ _ hget]
  unfold selectCardResolved runSelectCb
  have hcb : (optsFor "intl-from").cb = SelectCb.intlFromCb := by decide
  rw [hcb]
  dsimp only
  have hji : ¬ i2 = j := by
    intro h
    rw [h, he] at hget
    exact hgne (by rw [Option.some.inj hget])
  have hphase : ((t.cards.map (clearGroupCard c2.group)).set i2
      { c2 with selected := true })[j]? = some e := by
    rw [phase1_at hget j, if_neg hji, he, Option.map_some', clearGroupCard_of_ne _ _ hgne]
  exact intlFilter_card_unchanged _ (some c2) j e hphase hcont

theorem selectCard_localFrom_fields_other (t : DomState) (i : Nat) (c : Card)
    (hget : t.cards[i]? = some c) (fid : String)
    (h1 : ¬ fid = "local-from-id") (h2 : ¬ fid = "local-currency") :
    getField (selectCard t i (optsFor "local-from")) fid = getField t fid := by
  rw [selectCard_of_get _ _ _ _ hget]
  unfold getField
  rw [selectCardResolved_fields]
  rw [(by decide : optsFor "local-from"
    = ⟨some "local-from-id", some "local-currency", SelectCb.localFromCb⟩)]
  unfold writeHiddenCurrency writeHiddenId
  dsimp only
  rw [if_neg (by decide : ¬ ("local-from-id" : String) = "")]
  rw [if_neg (by decide : ¬ ("local-currency" : String) = "")]
  cases hcc : c.currency with
  | none => exact lookupId_setField_ne _ _ _ _ h1
  | some cur =>
    dsimp only
    by_cases hce : cur = ""
    · rw [if_pos hce]
      exact lookupId_setField_ne _ _ _ _ h1
    · rw [if_neg hce]
      rw [lookupId_setField_ne _ _ _ _ h2]
      exact lookupId_setField_ne _ _ _ _ h1

theorem selectCard_intlFrom_fields_other (t : DomState) (i : Nat) (c : Card)
    (hget : t.cards[i]? = some c) (fid : String) (h1 : ¬ fid = "intl-from-id") :
    getField (selectCard t i (optsFor "intl-from")) fid = getField t fid := by
  rw [selectCard_of_get _ _ _ _ hget]
  unfold getField
  rw [selectCardResolved_fields]
  rw [(by decide : optsFor "intl-from" = ⟨some "intl-from-id", none, SelectCb.intlFromCb⟩)]
  unfold writeHiddenCurrency writeHiddenId
  dsimp only
  rw [if_neg (by decide : ¬ ("intl-from-id" : String) = "")]
  exact lookupId_setField_ne _ _ _ _ h1

theorem selectCard_localFrom_fields_main (t : DomState) (i : Nat) (c : Card)
    (hget : t.cards[i]? = some c) :
    (getField (selectCard t i (optsFor "local-from")) "local-from-id"
      = (getField t "local-from-id").map (fun _ => c.accountId.getD "")) ∧
    (∀ cur, c.currency = some cur → ¬ cur = "" →
      getField (selectCard t i (optsFor "local-from")) "local-currency"
        = (getField t "local-currency").map (fun _ => cur)) := by
  rw [selectCard_of_get _ _ _ _ hget]
  unfold getField
  rw [selectCardResolved_fields]
  rw [(by decide : optsFor "local-from"
    = ⟨some "local-from-id", some "local-currency", SelectCb.localFromCb⟩)]
  unfold writeHiddenCurrency writeHiddenId
  dsimp only
  rw [if_neg (by decide : ¬ ("local-from-id" : String) = "")]
  rw [if_neg (by decide : ¬ ("local-currency" : String) = "")]
  constructor
  · cases hcc : c.currency with
    | none => exact lookupId_setField_self _ _ _
    | some cur =>
      dsimp only
      by_cases hce : cur = ""
      · rw [if_pos hce]
        exact lookupId_setField_self _ _ _
      · rw [if_neg hce]
        rw [lookupId_setField_ne _ _ _ _ (by decide : ¬ ("local-from-id" : String) = "local-currency")]
        exact lookupId_setField_self _ _ _
  · intro cur hcur hne
    rw [hcur]
    dsimp only
    rw [if_neg hne]
    rw [lookupId_setField_self, lookupId_setField_ne _ _ _ _
      (by decide : ¬ ("local-currency" : String) = "local-from-id")]

theorem selectCard_intlFrom_fields_main (t : DomState) (i : Nat) (c : Card)
    (hget : t.cards[i]? = some c) :
    getField (selectCard t i (optsFor "intl-from")) "intl-from-id"
      = (getField t "intl-from-id").map (fun _ => c.accountId.getD "") := by
  rw [selectCard_of_get _ _ _ _ hget]
  unfold getField
  rw [selectCardResolved_fields]
  rw [(by decide : optsFor "intl-from" = ⟨some "intl-from-id", none, SelectCb.intlFromCb⟩)]
  unfold writeHiddenCurrency writeHiddenId
  dsimp only
  rw [if_neg (by decide : ¬ ("intl-from-id" : String) = "")]
  exact lookupId_setField_self _ _ _

theorem mem_of_cards_getElem {s : DomState} {j : Nat} {e : Card}
    (h : s.cards[j]? = some e) : e ∈ s.cards := by
  obtain ⟨hlt, heq⟩ := List.getElem?_eq_some.mp h
  exact heq ▸ List.getElem_mem hlt

theorem eligCardIn_spec {r : String} {c : Card} (h : eligCardIn r c = true) :
    c.container = r ∧ c.dNone = false ∧ c.disabled = false := by
  unfold eligCardIn at h
  simp only [Bool.and_eq_true, beq_iff_eq, Bool.not_eq_true'] at h
  exact ⟨h.1.1, h.1.2, h.2⟩

theorem preselectStep_eq_railClick (t : DomState) (g : String) :
    preselectStep t g = railClick t g (findFirstEligible t ("rail-" ++ g)) := by
  unfold preselectStep railClick findFirstEligible
  by_cases hmem : ("rail-" ++ g) ∈ t.railIds
  · rw [if_pos hmem, if_pos hmem]
    cases hfi : firstIdxWhere (eligCardIn ("rail-" ++ g)) t.cards with
    | none => rfl
    | some i =>
      dsimp only
      obtain ⟨c, hcg, helig, _⟩ := firstIdxWhere_some_spec hfi
      rw [hcg]
      dsimp only
      rw [if_neg (by rw [(eligCardIn_spec helig).2.2]; simp)]
  · rw [if_neg hmem, if_neg hmem]

theorem findFirstEligible_after_localStep (s : DomState) (hWF : railsConsistent s) :
    findFirstEligible (preselectStep s "local-from") "rail-intl-from"
      = findFirstEligible s "rail-intl-from" := by
  unfold preselectStep
  have happ : ("rail-" ++ "local-from" : String) = "rail-local-from" := by decide
  rw [happ]
  cases hfi : findFirstEligible s "rail-local-from" with
  | none => rfl
  | some i1 =>
    unfold findFirstEligible at hfi
    split at hfi
    · obtain ⟨c1, hget1, helig1, _⟩ := firstIdxWhere_some_spec hfi
      have hc1cont : c1.container = "rail-local-from" := (eligCardIn_spec helig1).1
      have hc1wf : c1.container = "rail-" ++ c1.group := (hWF c1 (mem_of_cards_getElem hget1)).1
      unfold findFirstEligible
      rw [selectCard_railIds]
      by_cases hm2 : "rail-intl-from" ∈ s.railIds
      · rw [if_pos hm2, if_pos hm2]
        apply firstIdxWhere_ext
        intro j
        cases hsj : s.cards[j]? with
        | none =>
          have hat := selectCard_attrs_at s i1 (optsFor "local-from") j
          rw [hsj] at hat
          simp only [Option.map_none'] at hat
          rw [Option.map_eq_none'] at hat
          rw [hat]
        | some e =>
          have hewf : e.container = "rail-" ++ e.group := (hWF e (mem_of_cards_getElem hsj)).1
          by_cases hec : e.container = "rail-intl-from"
          · have hgne : ¬ e.group = c1.group := by
              intro hg
              rw [hewf, hg, ← hc1wf, hc1cont] at hec
              exact absurd hec (by decide)
            have hgl : ¬ e.group = "local-to" := by
              intro hg
              rw [hewf, hg] at hec
              exact absurd hec (by decide)
            have hcontne : ¬ e.container = "rail-local-to" := by
              rw [hec]
              decide
            rw [selectCard_localFrom_unchanged s i1 c1 hget1 j e hsj hgne hgl hcontne]
          · have hat := selectCard_attrs_at s i1 (optsFor "local-from") j
            rw [hsj] at hat
            cases hsel : (selectCard s i1 (optsFor "local-from")).cards[j]? with
            | none => rw [hsel] at hat; simp at hat
            | some e2 =>
              rw [hsel] at hat
              simp only [Option.map_some', Option.some.injEq] at hat
              have hc2 : e2.container = e.container := by
                have := congrArg (fun q => q.2.1) hat
                exact this
              simp only [Option.map_some']
              unfold eligCardIn
              have hb2 : (e2.container == "rail-intl-from") = false := by simp [hc2, hec]
              have hb : (e.container == "rail-intl-from") = false := by simp [hec]
              rw [hb2, hb]
              simp
      · rw [if_neg hm2, if_neg hm2]
    · exact absurd hfi (by simp)

theorem phase1_attrs_at {t : DomState} {i : Nat} {c : Card} (hget : t.cards[i]? = some c) (j : Nat) :
    (((t.cards.map (clearGroupCard c.group)).set i { c with selected := true })[j]?).map cardAttrs
      = (t.cards[j]?).map cardAttrs := by
  rw [phase1_at hget j]
  by_cases hji : i = j
  · rw [if_pos hji, ← hji, hget]
    rfl
  · rw [if_neg hji]
    cases t.cards[j]? <;> simp [cardAttrs_clearGroupCard]

theorem localFrom_select_selected (t : DomState) (i : Nat) (c : Card)
    (hget : t.cards[i]? = some c) (hcont : ¬ c.container = "rail-local-to") :
    ((selectCard t i (optsFor "local-from")).cards[i]?).map (fun d => d.selected)
      = some true := by
  rw [selectCard_of_get _ _ _ _ hget]
  obtain ⟨d, hd, hsel, _⟩ := selectCardResolved_at_i t i c (optsFor "local-from") hget
    (fun _ => hcont)
    (fun h => by
      rw [(by decide : (optsFor "local-from").cb = SelectCb.localFromCb)] at h
      exact SelectCb.noConfusion h)
  rw [hd, Option.map_some', hsel]

theorem intlFrom_select_selected (t : DomState) (i : Nat) (c : Card)
    (hget : t.cards[i]? = some c) (hcont : ¬ c.container = "rail-intl-to") :
    ((selectCard t i (optsFor "intl-from")).cards[i]?).map (fun d => d.selected)
      = some true := by
  rw [selectCard_of_get _ _ _ _ hget]
  obtain ⟨d, hd, hsel, _⟩ := selectCardResolved_at_i t i c (optsFor "intl-from") hget
    (fun h => by
      rw [(by decide : (optsFor "intl-from").cb = SelectCb.intlFromCb)] at h
      exact SelectCb.noConfusion h)
    (fun _ => hcont)
  rw [hd, Option.map_some', hsel]

theorem localFrom_select_disables (t : DomState) (i : Nat) (c : Card)
    (hget : t.cards[i]? = some c) (v0 : String) (hv0 : getField t "local-from-id" = some v0)
    (j : Nat) (d : Card) (hd : (selectCard t i (optsFor "local-from")).cards[j]? = some d)
    (hgd : d.group = "local-to") :
    (d.disabled = true ↔ d.accountId = some (c.accountId.getD "")) := by
  unfold getField at hv0
  rw [selectCard_of_get _ _ _ _ hget,
    (by decide : optsFor "local-from"
      = ⟨some "local-from-id", some "local-currency", SelectCb.localFromCb⟩)] at hd
  unfold selectCardResolved runSelectCb at hd
  dsimp only at hd
  obtain ⟨e, he, hdis, hacc, hgrp⟩ := postLocalFilter_card _ (some c) j d hd
  have hge : e.group = "local-to" := by rw [← hgrp]; exact hgd
  have hiff := disables_disabled_iff _ j e he hge
  unfold getField at hiff
  dsimp only at hiff
  have hwid : ∀ fs : List (String × String),
      writeHiddenId (⟨some "local-from-id", some "local-currency", SelectCb.localFromCb⟩
        : SelectOptions) c fs = setField fs "local-from-id" (c.accountId.getD "") := by
    intro fs
    unfold writeHiddenId
    dsimp only
    rw [if_neg (by decide : ¬ ("local-from-id" : String) = "")]
  have hfields : lookupId
      (writeHiddenCurrency (⟨some "local-from-id", some "local-currency", SelectCb.localFromCb⟩
          : SelectOptions) c
        (writeHiddenId (⟨some "local-from-id", some "local-currency", SelectCb.localFromCb⟩
          : SelectOptions) c t.fields))
      "local-from-id" = some (c.accountId.getD "") := by
    unfold writeHiddenCurrency
    dsimp only
    rw [if_neg (by decide : ¬ ("local-currency" : String) = "")]
    cases hcc : c.currency with
    | none =>
      rw [hwid, lookupId_setField_self, hv0]
      rfl
    | some cur =>
      dsimp only
      by_cases hce : cur = ""
      · rw [if_pos hce, hwid, lookupId_setField_self, hv0]
        rfl
      · rw [if_neg hce, hwid,
          lookupId_setField_ne _ "local-currency" _ "local-from-id" (by decide),
          lookupId_setField_self, hv0]
        rfl
  rw [hfields] at hiff
  simp only [Option.getD_some] at hiff
  rw [hdis, hacc]
  exact hiff

theorem localFrom_select_visibility (t : DomState) (i : Nat) (c : Card)
    (hget : t.cards[i]? = some c) (cur : String) (hcur : c.currency = some cur)
    (hne : ¬ cur = "") (hmem : "rail-local-to" ∈ t.railIds)
    (j : Nat) (e d : Card) (he : t.cards[j]? = some e)
    (hd : (selectCard t i (optsFor "local-from")).cards[j]? = some d)
    (hcont : e.container = "rail-local-to") :
    (d.dNone = false ↔ jsToUpper (e.currency.getD "") = jsToUpper (jsToUpper cur)) := by
  rw [selectCard_of_get _ _ _ _ hget] at hd
  unfold selectCardResolved runSelectCb at hd
  rw [(by decide : (optsFor "local-from").cb = SelectCb.localFromCb)] at hd
  dsimp only at hd
  unfold applyLocalCurrencyFilter at hd
  dsimp only at hd
  have hbind : (((some c).bind fun x => x.currency).getD "") = cur := by
    show (c.currency).getD "" = cur
    rw [hcur]
    rfl
  rw [hbind] at hd
  rw [if_neg (jsToUpper_ne_empty hne)] at hd
  have h2 : ((applyLocalToDisables
      { t with
        cards := (t.cards.map (clearGroupCard c.group)).set i { c with selected := true }
        fields := writeHiddenCurrency (optsFor "local-from") c
          (writeHiddenId (optsFor "local-from") c t.fields) }).cards[j]?).map cardAttrs
      = some (cardAttrs e) := by
    rw [disables_attrs_at]
    dsimp only
    rw [phase1_attrs_at hget j, he]
    rfl
  cases hT2 : (applyLocalToDisables
      { t with
        cards := (t.cards.map (clearGroupCard c.group)).set i { c with selected := true }
        fields := writeHiddenCurrency (optsFor "local-from") c
          (writeHiddenId (optsFor "local-from") c t.fields) }).cards[j]? with
  | none => rw [hT2] at h2; simp at h2
  | some e2 =>
    rw [hT2] at h2
    simp only [Option.map_some', Option.some.injEq] at h2
    have he2cont : e2.container = e.container := congrArg (fun q => q.2.1) h2
    have he2cur : e2.currency = e.currency := congrArg (fun q => q.2.2.2) h2
    have hm : "rail-local-to" ∈ (applyLocalToDisables
        { t with
          cards := (t.cards.map (clearGroupCard c.group)).set i { c with selected := true }
          fields := writeHiddenCurrency (optsFor "local-from") c
            (writeHiddenId (optsFor "local-from") c t.fields) }).railIds := by
      rw [disables_railIds]
      exact hmem
    have hiff := filterRail_visible_iff _ "rail-local-to" (jsToUpper cur)
      (jsToUpper_ne_empty hne) hm j e2 d hT2 hd (by rw [he2cont]; exact hcont)
    rw [he2cur] at hiff
    exact hiff

theorem attrs_some {x : Option Card} {c : Card} (h : x.map cardAttrs = some (cardAttrs c)) :
    ∃ e, x = some e ∧ cardAttrs e = cardAttrs c := by
  cases x with
  | none => simp at h
  | some y =>
    simp only [Option.map_some', Option.some.injEq] at h
    exact ⟨y, rfl, h⟩

theorem ffe_none_of_first_none {s : DomState} {r : String}
    (h : firstIdxWhere (eligCardIn r) s.cards = none) : findFirstEligible s r = none := by
  unfold findFirstEligible
  by_cases hm : r ∈ s.railIds
  · rw [if_pos hm, h]
  · rw [if_neg hm]

theorem first_of_ffe_some {s : DomState} {r : String} {i : Nat}
    (h : findFirstEligible s r = some i) :
    firstIdxWhere (eligCardIn r) s.cards = some i := by
  unfold findFirstEligible at h
  split at h
  · exact h
  · exact absurd h (by simp)


/-- C8: the preselect tail of the script.  Each per-rail step behaves
exactly as a user click on the first visible, enabled card of that rail
(when one exists), with eligibility read off the load-time state; for the
local-from rail the first eligible card ends up selected, its account id
(and, when its currency is truthy, that raw currency) is written to the
bound hidden fields, and afterwards the local-to disable rule and the
same-currency local-to filter hold; for the intl-from rail the first
eligible card ends up selected and its id is written; a rail with no
eligible card leaves every one of its cards exactly as it was. -/
theorem claim8_init_preselect (s : DomState) (hWF : railsConsistent s) :
    (∀ (t : DomState) (g : String),
        preselectStep t g = railClick t g (findFirstEligible t ("rail-" ++ g))) ∧
    (initPreselect s
        = railClick (railClick s "local-from" (findFirstEligible s "rail-local-from"))
            "intl-from" (findFirstEligible s "rail-intl-from")) ∧
    (∀ i1, firstIdxWhere (eligCardIn "rail-local-from") s.cards = some i1 →
       (((initPreselect s).cards[i1]?).map (fun d => d.selected) = some true ∧
        (∀ v, getField s "local-from-id" = some v →
          getField (initPreselect s) "local-from-id"
            = some (((s.cards[i1]?).bind (fun d => d.accountId)).getD "") ∧
          (∀ (j : Nat) (d : Card), (initPreselect s).cards[j]? = some d →
            d.group = "local-to" →
            (d.disabled = true
              ↔ d.accountId = some (((s.cards[i1]?).bind (fun x => x.accountId)).getD "")))) ∧
        (∀ cur, (s.cards[i1]?).bind (fun d => d.currency) = some cur → ¬ cur = "" →
          (∀ v0, getField s "local-currency" = some v0 →
            getField (initPreselect s) "local-currency" = some cur) ∧
          (∀ (j : Nat) (c d : Card), s.cards[j]? = some c →
            (initPreselect s).cards[j]? = some d → c.container = "rail-local-to" →
            (d.dNone = false
              ↔ jsToUpper (c.currency.getD "") = jsToUpper (jsToUpper cur)))))) ∧
    (∀ i2, firstIdxWhere (eligCardIn "rail-intl-from") s.cards = some i2 →
       (((initPreselect s).cards[i2]?).map (fun d => d.selected) = some true ∧
        (∀ v, getField s "intl-from-id" = some v →
          getField (initPreselect s) "intl-from-id"
            = some (((s.cards[i2]?).bind (fun d => d.accountId)).getD "")))) ∧
    (firstIdxWhere (eligCardIn "rail-local-from") s.cards = none →
      ∀ (j : Nat) (c c' : Card), s.cards[j]? = some c → (initPreselect s).cards[j]? = some c' →
        c.container = "rail-local-from" → c' = c) ∧
    (firstIdxWhere (eligCardIn "rail-intl-from") s.cards = none →
      ∀ (j : Nat) (c c' : Card), s.cards[j]? = some c → (initPreselect s).cards[j]? = some c' →
        c.container = "rail-intl-from" → c' = c) := by
  have happ1 : ("rail-" ++ "local-from" : String) = "rail-local-from" := by decide
  have happ2 : ("rail-" ++ "intl-from" : String) = "rail-intl-from" := by decide
  refine ⟨preselectStep_eq_railClick, ?_, ?_, ?_, ?_, ?_⟩
  · unfold initPreselect
    rw [preselectStep_eq_railClick (preselectStep s "local-from") "intl-from", happ2,
      findFirstEligible_after_localStep s hWF,
      preselectStep_eq_railClick s "local-from", happ1]
  · intro i1 hfi1
    obtain ⟨c1, hget1, helig1, _⟩ := firstIdxWhere_some_spec hfi1
    have hc1cont : c1.container = "rail-local-from" := (eligCardIn_spec helig1).1
    have hc1wf : c1.container = "rail-" ++ c1.group := (hWF c1 (mem_of_cards_getElem hget1)).1
    have hc1mem : "rail-local-from" ∈ s.railIds := by
      have h := (hWF c1 (mem_of_cards_getElem hget1)).2
      rw [hc1cont] at h
      exact h
    have hstep1 : preselectStep s "local-from" = selectCard s i1 (optsFor "local-from") := by
      unfold preselectStep findFirstEligible
      rw [happ1, if_pos hc1mem, hfi1]
    have hinit : initPreselect s
        = preselectStep (selectCard s i1 (optsFor "local-from")) "intl-from" := by
      unfold initPreselect
      rw [hstep1]
    have hcong : findFirstEligible (selectCard s i1 (optsFor "local-from")) "rail-intl-from"
        = findFirstEligible s "rail-intl-from" := by
      have h := findFirstEligible_after_localStep s hWF
      rw [hstep1] at h
      exact h
    have hs1sel : ((selectCard s i1 (optsFor "local-from")).cards[i1]?).map
        (fun d => d.selected) = some true :=
      localFrom_select_selected s i1 c1 hget1 (by rw [hc1cont]; decide)
    cases hk : findFirstEligible s "rail-intl-from" with
    | none =>
      have hinit2 : initPreselect s = selectCard s i1 (optsFor "local-from") := by
        rw [hinit]
        unfold preselectStep
        rw [happ2, hcong, hk]
      rw [hinit2]
      refine ⟨hs1sel, ?_, ?_⟩
      · intro v hv
        have hmain := selectCard_localFrom_fields_main s i1 c1 hget1
        constructor
        · rw [hmain.1, hv, hget1]
          rfl
        · intro j d hd hgd
          have h := localFrom_select_disables s i1 c1 hget1 v hv j d hd hgd
          rw [hget1]
          exact h
      · intro cur hcur hne
        rw [hget1] at hcur
        have hcur1 : c1.currency = some cur := hcur
        constructor
        · intro v0 hv0
          have hmain := selectCard_localFrom_fields_main s i1 c1 hget1
          rw [hmain.2 cur hcur1 hne, hv0]
          rfl
        · intro j ccard d hc hd hcont
          have hmem2 : "rail-local-to" ∈ s.railIds := by
            have h := (hWF ccard (mem_of_cards_getElem hc)).2
            rw [hcont] at h
            exact h
          exact localFrom_select_visibility s i1 c1 hget1 cur hcur1 hne hmem2 j ccard d hc hd
            hcont
    | some i2 =>
      have hinit2 : initPreselect s
          = selectCard (selectCard s i1 (optsFor "local-from")) i2 (optsFor "intl-from") := by
        rw [hinit]
        unfold preselectStep
        rw [happ2, hcong, hk]
      have hfi2 := first_of_ffe_some hk
      obtain ⟨c2, hget2, helig2, _⟩ := firstIdxWhere_some_spec hfi2
      have hc2cont : c2.container = "rail-intl-from" := (eligCardIn_spec helig2).1
      have hc2wf : c2.container = "rail-" ++ c2.group := (hWF c2 (mem_of_cards_getElem hget2)).1
      have hat2 : ((selectCard s i1 (optsFor "local-from")).cards[i2]?).map cardAttrs
          = some (cardAttrs c2) := by
        rw [selectCard_attrs_at, hget2]
        rfl
      obtain ⟨c2', hs1i2, hat2'⟩ := attrs_some hat2
      have hc2'g : c2'.group = c2.group := congrArg (fun q => q.1) hat2'
      have hc2'cont : c2'.container = "rail-intl-from" := by
        have h : c2'.container = c2.container := congrArg (fun q => q.2.1) hat2'
        rw [hc2cont] at h
        exact h
      have hat1 : ((selectCard s i1 (optsFor "local-from")).cards[i1]?).map cardAttrs
          = some (cardAttrs c1) := by
        rw [selectCard_attrs_at, hget1]
        rfl
      obtain ⟨d1, hd1, hat1'⟩ := attrs_some hat1
      have hd1g : d1.group = c1.group := congrArg (fun q => q.1) hat1'
      have hd1cont : d1.container = "rail-local-from" := by
        have h : d1.container = c1.container := congrArg (fun q => q.2.1) hat1'
        rw [hc1cont] at h
        exact h
      have hd1sel : d1.selected = true := by
        rw [hd1] at hs1sel
        simpa using hs1sel
      have hgne1 : ¬ d1.group = c2'.group := by
        intro hg
        rw [hd1g, hc2'g] at hg
        have hcc : c1.container = c2.container := by rw [hc1wf, hc2wf, hg]
        rw [hc1cont, hc2cont] at hcc
        exact absurd hcc (by decide)
      have hkeep1 : (selectCard (selectCard s i1 (optsFor "local-from")) i2
          (optsFor "intl-from")).cards[i1]? = some d1 :=
        selectCard_intlFrom_unchanged _ i2 c2' hs1i2 i1 d1 hd1 hgne1 (by rw [hd1cont]; decide)
      rw [hinit2]
      refine ⟨?_, ?_, ?_⟩
      · rw [hkeep1, Option.map_some', hd1sel]
      · intro v hv
        have hmain := selectCard_localFrom_fields_main s i1 c1 hget1
        have hother := selectCard_intlFrom_fields_other _ i2 c2' hs1i2 "local-from-id"
          (by decide)
        constructor
        · rw [hother, hmain.1, hv, hget1]
          rfl
        · intro j d hd hgd
          have hatj : ((selectCard s i1 (optsFor "local-from")).cards[j]?).map cardAttrs
              = some (cardAttrs d) := by
            rw [← selectCard_attrs_at _ i2 (optsFor "intl-from") j, hd]
            rfl
          obtain ⟨e, hej, hate⟩ := attrs_some hatj
          have hegd : e.group = d.group := congrArg (fun q => q.1) hate
          have heg : e.group = "local-to" := by rw [hegd, hgd]
          have hatsj : (s.cards[j]?).map cardAttrs = some (cardAttrs e) := by
            rw [← selectCard_attrs_at s i1 (optsFor "local-from") j, hej]
            rfl
          obtain ⟨c0, hc0, hatc0⟩ := attrs_some hatsj
          have hc0g : c0.group = "local-to" := by
            have hg0 : c0.group = e.group := congrArg (fun q => q.1) hatc0
            rw [hg0, heg]
          have hc0wf : c0.container = "rail-" ++ c0.group :=
            (hWF c0 (mem_of_cards_getElem hc0)).1
          have hecont : e.container = "rail-local-to" := by
            have h : c0.container = e.container := congrArg (fun q => q.2.1) hatc0
            rw [← h, hc0wf, hc0g]
            decide
          have hgne : ¬ e.group = c2'.group := by
            intro hg
            rw [heg, hc2'g] at hg
            have hcc : c2.container = "rail-" ++ "local-to" := by rw [hc2wf, ← hg]
            rw [hc2cont] at hcc
            exact absurd hcc (by decide)
          have hkeepj : (selectCard (selectCard s i1 (optsFor "local-from")) i2
              (optsFor "intl-from")).cards[j]? = some e :=
            selectCard_intlFrom_unchanged _ i2 c2' hs1i2 j e hej hgne (by rw [hecont]; decide)
          have hed : e = d := Option.some.inj (hkeepj.symm.trans hd)
          rw [← hed, hget1]
          exact localFrom_select_disables s i1 c1 hget1 v hv j e hej heg
      · intro cur hcur hne
        rw [hget1] at hcur
        have hcur1 : c1.currency = some cur := hcur
        have hmain := selectCard_localFrom_fields_main s i1 c1 hget1
        have hother := selectCard_intlFrom_fields_other _ i2 c2' hs1i2 "local-currency"
          (by decide)
        constructor
        · intro v0 hv0
          rw [hother, hmain.2 cur hcur1 hne, hv0]
          rfl
        · intro j ccard d hc hd hcont
          have hmem2 : "rail-local-to" ∈ s.railIds := by
            have h := (hWF ccard (mem_of_cards_getElem hc)).2
            rw [hcont] at h
            exact h
          have hatsj : ((selectCard s i1 (optsFor "local-from")).cards[j]?).map cardAttrs
              = some (cardAttrs ccard) := by
            rw [selectCard_attrs_at, hc]
            rfl
          obtain ⟨e, hej, hate⟩ := attrs_some hatsj
          have hecont : e.container = "rail-local-to" := by
            have h : e.container = ccard.container := congrArg (fun q => q.2.1) hate
            rw [hcont] at h
            exact h
          have hccwf : ccard.container = "rail-" ++ ccard.group :=
            (hWF ccard (mem_of_cards_getElem hc)).1
          have hgne : ¬ e.group = c2'.group := by
            intro hg
            have heg : e.group = ccard.group := congrArg (fun q => q.1) hate
            rw [heg, hc2'g] at hg
            have hcc : ccard.container = c2.container := by rw [hccwf, hc2wf, hg]
            rw [hcont, hc2cont] at hcc
            exact absurd hcc (by decide)
          have hkeepj : (selectCard (selectCard s i1 (optsFor "local-from")) i2
              (optsFor "intl-from")).cards[j]? = some e :=
            selectCard_intlFrom_unchanged _ i2 c2' hs1i2 j e hej hgne (by rw [hecont]; decide)
          have hed : e = d := Option.some.inj (hkeepj.symm.trans hd)
          rw [← hed]
          exact localFrom_select_visibility s i1 c1 hget1 cur hcur1 hne hmem2 j ccard e hc hej
            hcont
  · intro i2 hfi2
    obtain ⟨c2, hget2, helig2, _⟩ := firstIdxWhere_some_spec hfi2
    have hc2cont : c2.container = "rail-intl-from" := (eligCardIn_spec helig2).1
    have hc2wf : c2.container = "rail-" ++ c2.group := (hWF c2 (mem_of_cards_getElem hget2)).1
    have hc2mem : "rail-intl-from" ∈ s.railIds := by
      have h := (hWF c2 (mem_of_cards_getElem hget2)).2
      rw [hc2cont] at h
      exact h
    have hffe2 : findFirstEligible s "rail-intl-from" = some i2 := by
      unfold findFirstEligible
      rw [if_pos hc2mem, hfi2]
    cases hfi1x : firstIdxWhere (eligCardIn "rail-local-from") s.cards with
    | none =>
      have hstep1 : preselectStep s "local-from" = s := by
        unfold preselectStep
        rw [happ1, ffe_none_of_first_none hfi1x]
      have hinit2 : initPreselect s = selectCard s i2 (optsFor "intl-from") := by
        unfold initPreselect
        rw [hstep1]
        unfold preselectStep
        rw [happ2, hffe2]
      rw [hinit2]
      refine ⟨intlFrom_select_selected s i2 c2 hget2 (by rw [hc2cont]; decide), ?_⟩
      intro v hv
      rw [selectCard_intlFrom_fields_main s i2 c2 hget2, hv, hget2]
      rfl
    | some i1 =>
      obtain ⟨c1, hget1, helig1, _⟩ := firstIdxWhere_some_spec hfi1x
      have hc1cont : c1.container = "rail-local-from" := (eligCardIn_spec helig1).1
      have hc1mem : "rail-local-from" ∈ s.railIds := by
        have h := (hWF c1 (mem_of_cards_getElem hget1)).2
        rw [hc1cont] at h
        exact h
      have hstep1 : preselectStep s "local-from" = selectCard s i1 (optsFor "local-from") := by
        unfold preselectStep findFirstEligible
        rw [happ1, if_pos hc1mem, hfi1x]
      have hcong : findFirstEligible (selectCard s i1 (optsFor "local-from")) "rail-intl-from"
          = findFirstEligible s "rail-intl-from" := by
        have h := findFirstEligible_after_localStep s hWF
        rw [hstep1] at h
        exact h
      have hinit2 : initPreselect s
          = selectCard (selectCard s i1 (optsFor "local-from")) i2 (optsFor "intl-from") := by
        unfold initPreselect
        rw [hstep1]
        unfold preselectStep
        rw [happ2, hcong, hffe2]
      have hat2 : ((selectCard s i1 (optsFor "local-from")).cards[i2]?).map cardAttrs
          = some (cardAttrs c2) := by
        rw [selectCard_attrs_at, hget2]
        rfl
      obtain ⟨c2', hs1i2, hat2'⟩ := attrs_some hat2
      have hc2'cont : c2'.container = "rail-intl-from" := by
        have h : c2'.container = c2.container := congrArg (fun q => q.2.1) hat2'
        rw [hc2cont] at h
        exact h
      have hc2'acc : c2'.accountId = c2.accountId := congrArg (fun q => q.2.2.1) hat2'
      rw [hinit2]
      refine ⟨intlFrom_select_selected _ i2 c2' hs1i2 (by rw [hc2'cont]; decide), ?_⟩
      intro v hv
      have hother := selectCard_localFrom_fields_other s i1 c1 hget1 "intl-from-id"
        (by decide) (by decide)
      rw [selectCard_intlFrom_fields_main _ i2 c2' hs1i2, hother, hv, hget2, hc2'acc]
      rfl
  · intro hfi1n j c c' hc hc' hcont
    have hstep1 : preselectStep s "local-from" = s := by
      unfold preselectStep
      rw [happ1, ffe_none_of_first_none hfi1n]
    have hinitA : initPreselect s = preselectStep s "intl-from" := by
      unfold initPreselect
      rw [hstep1]
    cases hfi2x : firstIdxWhere (eligCardIn "rail-intl-from") s.cards with
    | none =>
      have hinit2 : initPreselect s = s := by
        rw [hinitA]
        unfold preselectStep
        rw [happ2, ffe_none_of_first_none hfi2x]
      rw [hinit2] at hc'
      exact Option.some.inj (hc'.symm.trans hc)
    | some i2 =>
      obtain ⟨c2, hget2, helig2, _⟩ := firstIdxWhere_some_spec hfi2x
      have hc2cont : c2.container = "rail-intl-from" := (eligCardIn_spec helig2).1
      have hc2wf : c2.container = "rail-" ++ c2.group := (hWF c2 (mem_of_cards_getElem hget2)).1
      have hc2mem : "rail-intl-from" ∈ s.railIds := by
        have h := (hWF c2 (mem_of_cards_getElem hget2)).2
        rw [hc2cont] at h
        exact h
      have hinit2 : initPreselect s = selectCard s i2 (optsFor "intl-from") := by
        rw [hinitA]
        unfold preselectStep findFirstEligible
        rw [happ2, if_pos hc2mem, hfi2x]
      have hcwf : c.container = "rail-" ++ c.group := (hWF c (mem_of_cards_getElem hc)).1
      have hgne : ¬ c.group = c2.group := by
        intro hg
        have hcc : c.container = c2.container := by rw [hcwf, hc2wf, hg]
        rw [hcont, hc2cont] at hcc
        exact absurd hcc (by decide)
      have hkeep : (selectCard s i2 (optsFor "intl-from")).cards[j]? = some c :=
        selectCard_intlFrom_unchanged s i2 c2 hget2 j c hc hgne (by rw [hcont]; decide)
      rw [hinit2, hkeep] at hc'
      exact (Option.some.inj hc').symm
  · intro hfi2n j c c' hc hc' hcont
    cases hfi1x : firstIdxWhere (eligCardIn "rail-local-from") s.cards with
    | none =>
      have hstep1 : preselectStep s "local-from" = s := by
        unfold preselectStep
        rw [happ1, ffe_none_of_first_none hfi1x]
      have hinit2 : initPreselect s = s := by
        unfold initPreselect
        rw [hstep1]
        unfold preselectStep
        rw [happ2, ffe_none_of_first_none hfi2n]
      rw [hinit2] at hc'
      exact Option.some.inj (hc'.symm.trans hc)
    | some i1 =>
      obtain ⟨c1, hget1, helig1, _⟩ := firstIdxWhere_some_spec hfi1x
      have hc1cont : c1.container = "rail-local-from" := (eligCardIn_spec helig1).1
      have hc1wf : c1.container = "rail-" ++ c1.group := (hWF c1 (mem_of_cards_getElem hget1)).1
      have hc1mem : "rail-local-from" ∈ s.railIds := by
        have h := (hWF c1 (mem_of_cards_getElem hget1)).2
        rw [hc1cont] at h
        exact h
      have hstep1 : preselectStep s "local-from" = selectCard s i1 (optsFor "local-from") := by
        unfold preselectStep findFirstEligible
        rw [happ1, if_pos hc1mem, hfi1x]
      have hcong : findFirstEligible (selectCard s i1 (optsFor "local-from")) "rail-intl-from"
          = findFirstEligible s "rail-intl-from" := by
        have h := findFirstEligible_after_localStep s hWF
        rw [hstep1] at h
        exact h
      have hinit2 : initPreselect s = selectCard s i1 (optsFor "local-from") := by
        unfold initPreselect
        rw [hstep1]
        unfold preselectStep
        rw [happ2, hcong, ffe_none_of_first_none hfi2n]
      have hcwf : c.container = "rail-" ++ c.group := (hWF c (mem_of_cards_getElem hc)).1
      have hgne : ¬ c.group = c1.group := by
        intro hg
        have hcc : c.container = c1.container := by rw [hcwf, hc1wf, hg]
        rw [hcont, hc1cont] at hcc
        exact absurd hcc (by decide)
      have hgl : ¬ c.group = "local-to" := by
        intro hg
        rw [hg] at hcwf
        rw [hcwf] at hcont
        exact absurd hcont (by decide)
      have hkeep : (selectCard s i1 (optsFor "local-from")).cards[j]? = some c :=
        selectCard_localFrom_unchanged s i1 c1 hget1 j c hc hgne hgl (by rw [hcont]; decide)
      rw [hinit2, hkeep] at hc'
      exact (Option.some.inj hc').symm

/-- Witness for C8 at a concrete consistent four-rail document: the first
local-from card (index 0, account id 1) ends up selected and its id is
written to the local-from hidden field. -/
theorem claim8_witness :
    railsConsistent c8s ∧
    ((initPreselect c8s).cards[0]?).map (fun d => d.selected) = some true ∧
    getField (initPreselect c8s) "local-from-id" = some "1" := by
  have h := claim8_init_preselect c8s (by decide)
  refine ⟨by decide, (h.2.2.1 0 (by decide)).1, ?_⟩
  rw [((h.2.2.1 0 (by decide)).2.1 "" (by decide)).1]
  decide
